import Mathlib

/-!
Verification development for the line-oriented email parsing/clustering engine
of `src/utils/email_parser.py` (Rubitherm_Capstone).

The Python module is embedded shallowly: each Python function becomes an
executable Lean definition.  Python `re` patterns are embedded as terms of a
small regular-expression AST (`RE`) together with a backtracking matcher whose
candidate order reproduces the leftmost / greedy / ordered-alternation
semantics of CPython's `re` module (`search`, `match`, `finditer`, `sub`).
Python strings are Lean `String`s; `dict`s keyed by strings become ordered
association lists with overwrite-on-insert semantics.

Scope notes on the Python builtins that are modelled: case folding covers
ASCII plus the Latin-1 letter block (all characters appearing in the module's
patterns); whitespace covers the Python whitespace set for this plane;
`html.unescape` is modelled for numeric references and the common named
entities, leaving unknown entities untouched, as Python does for unknown
names.  No claim in this development depends on characters outside that scope.
-/

set_option maxRecDepth 100000

namespace EmailParse

/-! ## Python character and string primitives -/

def cn (c : Char) : Nat := c.toNat

/-- Python `str.lower` on one character, for the ASCII and Latin-1 ranges.
(`0xD7` is `×`, which has no case.) -/
def pyLower (c : Char) : Char :=
  let n := cn c
  if 65 ≤ n && n ≤ 90 then Char.ofNat (n + 32)
  else if 192 ≤ n && n ≤ 222 && n != 215 then Char.ofNat (n + 32)
  else c

/-- Python `str.upper` on one character, for the ASCII and Latin-1 ranges.
(`0xF7` is `÷`; `ß`/`ÿ` upper outside Latin-1 and do not occur in inputs.) -/
def pyUpper (c : Char) : Char :=
  let n := cn c
  if 97 ≤ n && n ≤ 122 then Char.ofNat (n - 32)
  else if 224 ≤ n && n ≤ 254 && n != 247 then Char.ofNat (n - 32)
  else c

def pyLowerStr (s : String) : String := String.mk (s.data.map pyLower)

def pyUpperStr (s : String) : String := String.mk (s.data.map pyUpper)

/-- Python whitespace (`str.isspace`, and regex `\s` for the `str` engine). -/
def isPySpace (c : Char) : Bool :=
  let n := cn c
  (9 ≤ n && n ≤ 13) || n == 32 || (28 ≤ n && n ≤ 31) || n == 0x85 || n == 0xA0 ||
  n == 0x1680 || (0x2000 ≤ n && n ≤ 0x200A) || n == 0x2028 || n == 0x2029 ||
  n == 0x202F || n == 0x205F || n == 0x3000

/-- Word characters for regex `\b` (ASCII alphanumerics, `_`, and the Latin-1
letters, which cover every word character these inputs use). -/
def isWordChar (c : Char) : Bool :=
  let n := cn c
  (48 ≤ n && n ≤ 57) || (65 ≤ n && n ≤ 90) || (97 ≤ n && n ≤ 122) || n == 95 ||
  (192 ≤ n && n ≤ 255 && n != 215 && n != 247)

def isDigitCh (c : Char) : Bool := 48 ≤ cn c && cn c ≤ 57

def pyStripL (cs : List Char) : List Char :=
  ((cs.dropWhile isPySpace).reverse.dropWhile isPySpace).reverse

/-- Python `str.strip()` (no arguments). -/
def pyStrip (s : String) : String := String.mk (pyStripL s.data)

/-- Python `str.rstrip("\n")`. -/
def pyRstripNl (s : String) : String :=
  String.mk (s.data.reverse.dropWhile (fun c => c == '\n')).reverse

/-- Line-break characters recognised by Python `str.splitlines`
(`\r\n` is additionally treated as a single break by `splitLines`). -/
def isLineBreakChar (c : Char) : Bool :=
  let n := cn c
  n == 10 || n == 13 || n == 11 || n == 12 || (28 ≤ n && n ≤ 30) || n == 0x85 ||
  n == 0x2028 || n == 0x2029

def splitLinesAux : List Char → List Char → List String
  | [], acc => if acc.isEmpty then [] else [String.mk acc.reverse]
  | '\r' :: '\n' :: rest, acc => String.mk acc.reverse :: splitLinesAux rest []
  | c :: rest, acc =>
    if isLineBreakChar c then
      String.mk acc.reverse :: splitLinesAux rest []
    else
      splitLinesAux rest (c :: acc)

/-- Python `str.splitlines()`. -/
def splitLines (s : String) : List String := splitLinesAux s.data []

/-! ## Regular-expression engine

A backtracking matcher over an explicit AST.  `mrun` enumerates end positions
(with captures) in exactly the priority order CPython's backtracking explores
them, so taking the head of the list gives the Python match. -/

inductive RE where
  | eps : RE
  | cls : (Char → Bool) → RE
  | seq : RE → RE → RE
  | alt : RE → RE → RE
  | star : RE → RE
  | starL : RE → RE
  | wb : RE
  | eol : RE
  | grp : Nat → RE → RE

/-- Captures: `(group index, start, end)`, most recent first. -/
abbrev Caps := List (Nat × Nat × Nat)

def isWordAt (cs : List Char) (pos : Nat) : Bool :=
  match cs[pos]? with
  | some c => isWordChar c
  | none => false

def isWordBefore (cs : List Char) (pos : Nat) : Bool :=
  match pos with
  | 0 => false
  | p + 1 => isWordAt cs p

/-- One layer of the backtracking matcher, structural in the expression.
`starCont` continues an unbounded repetition (both `star`s) after its body
consumed at least one character; it carries the fuel of the enclosing
`mrun`. -/
def mrunIn (cs : List Char) (starCont : RE → Nat → Caps → List (Nat × Caps)) :
    RE → Nat → Caps → List (Nat × Caps)
  | .eps, pos, caps => [(pos, caps)]
  | .cls p, pos, caps =>
    match cs[pos]? with
    | some c => if p c then [(pos + 1, caps)] else []
    | none => []
  | .seq a b, pos, caps =>
    (mrunIn cs starCont a pos caps).flatMap
      (fun r => mrunIn cs starCont b r.1 r.2)
  | .alt a b, pos, caps =>
    mrunIn cs starCont a pos caps ++ mrunIn cs starCont b pos caps
  | .star a, pos, caps =>
    ((mrunIn cs starCont a pos caps).flatMap (fun r =>
      if pos < r.1 then starCont (.star a) r.1 r.2 else [])) ++ [(pos, caps)]
  | .starL a, pos, caps =>
    (pos, caps) :: (mrunIn cs starCont a pos caps).flatMap (fun r =>
      if pos < r.1 then starCont (.starL a) r.1 r.2 else [])
  | .wb, pos, caps =>
    if isWordBefore cs pos != isWordAt cs pos then [(pos, caps)] else []
  | .eol, pos, caps => if pos == cs.length then [(pos, caps)] else []
  | .grp i a, pos, caps =>
    (mrunIn cs starCont a pos caps).map (fun r => (r.1, (i, pos, r.1) :: r.2))

/-- The matcher: enumerate end positions (with captures) in CPython's
backtracking priority order.  Every `star` iteration consumes at least one
character, so `fuel = cs.length + 1` can never be exhausted from position 0
(the fuel-out base returns no match). -/
def mrun (cs : List Char) : Nat → RE → Nat → Caps → List (Nat × Caps)
  | 0, _, _, _ => []
  | fuel + 1, re, pos, caps => mrunIn cs (mrun cs fuel) re pos caps

/-- Python `pattern.match(s)` at a position: highest-priority match. -/
def reMatchAt (re : RE) (cs : List Char) (pos : Nat) : Option (Nat × Caps) :=
  (mrun cs (cs.length + 1) re pos []).head?

/-- Python `re.search` scanning from `start` (fuel bounds the scan; it is
called with `cs.length + 1`, enough to reach the end from any start). -/
def reSearchF (re : RE) (cs : List Char) : Nat → Nat → Option (Nat × Nat × Caps)
  | 0, _ => none
  | fuel + 1, start =>
    if start ≤ cs.length then
      match reMatchAt re cs start with
      | some (e, caps) => some (start, e, caps)
      | none => reSearchF re cs fuel (start + 1)
    else none

def reSearchFrom (re : RE) (cs : List Char) (start : Nat) :
    Option (Nat × Nat × Caps) :=
  reSearchF re cs (cs.length + 1) start

def reSearch (re : RE) (cs : List Char) : Option (Nat × Nat × Caps) :=
  reSearchFrom re cs 0

def reTest (re : RE) (cs : List Char) : Bool := (reSearch re cs).isSome

/-- Python `pattern.finditer`: non-overlapping matches, left to right. -/
def reFindAux (re : RE) (cs : List Char) (start : Nat) (fuel : Nat) :
    List (Nat × Nat × Caps) :=
  match fuel with
  | 0 => []
  | f + 1 =>
    match reSearchFrom re cs start with
    | none => []
    | some (s, e, caps) =>
      (s, e, caps) :: reFindAux re cs (if s < e then e else e + 1) f

def reFindIter (re : RE) (cs : List Char) : List (Nat × Nat × Caps) :=
  reFindAux re cs 0 (cs.length + 1)

def sliceStr (cs : List Char) (s e : Nat) : String :=
  String.mk ((cs.drop s).take (e - s))

/-- The `m.group(0)` strings of `pattern.finditer`. -/
def findAllStrs (re : RE) (cs : List Char) : List String :=
  (reFindIter re cs).map (fun m => sliceStr cs m.1 m.2.1)

def capGet (caps : Caps) (i : Nat) : Option (Nat × Nat) :=
  (caps.find? (fun t => t.1 == i)).map (fun t => t.2)

def reSubAux (cs : List Char) (repl : Caps → List Char) :
    List (Nat × Nat × Caps) → Nat → List Char
  | [], pos => cs.drop pos
  | (s, e, caps) :: rest, pos =>
    ((cs.drop pos).take (s - pos)) ++ repl caps ++ reSubAux cs repl rest e

/-- Python `pattern.sub(replacement, s)` with a constant replacement. -/
def reSub (re : RE) (cs : List Char) (repl : List Char) : List Char :=
  reSubAux cs (fun _ => repl) (reFindIter re cs) 0

/-- Python `pattern.sub(r"\1", s)`. -/
def reSubG1 (re : RE) (cs : List Char) : List Char :=
  reSubAux cs
    (fun caps =>
      match capGet caps 1 with
      | some (s, e) => (cs.drop s).take (e - s)
      | none => [])
    (reFindIter re cs) 0

/-! ### Pattern constructors -/

/-- A literal character (case-sensitive). -/
def rchr (c : Char) : RE := .cls (fun x => x == c)

/-- A literal character under `re.IGNORECASE`. -/
def rchi (c : Char) : RE := .cls (fun x => pyLower x == pyLower c)

def rcat (rs : List RE) : RE := rs.foldr .seq .eps

/-- A literal string (case-sensitive). -/
def rstr (s : String) : RE := rcat (s.data.map rchr)

/-- A literal string under `re.IGNORECASE`. -/
def rstri (s : String) : RE := rcat (s.data.map rchi)

/-- `r?` (greedy). -/
def ropt (a : RE) : RE := .alt a .eps

/-- `r+` (greedy). -/
def rplus (a : RE) : RE := .seq a (.star a)

/-- Ordered alternation of a list of branches. -/
def raltL : List RE → RE
  | [] => .cls (fun _ => false)
  | [a] => a
  | a :: rest => .alt a (raltL rest)

/-- `r{0,n}` (greedy). -/
def roptn (a : RE) : Nat → RE
  | 0 => .eps
  | n + 1 => .alt (.seq a (roptn a n)) .eps

/-- `r{lo,hi}` (greedy). -/
def rrep (a : RE) : Nat → Nat → RE
  | 0, hi => roptn a hi
  | lo + 1, hi => .seq a (rrep a lo (hi - 1))

/-- `r{n,}` (greedy). -/
def rrepInf (a : RE) (n : Nat) : RE :=
  match n with
  | 0 => .star a
  | m + 1 => .seq a (rrepInf a m)

/-- `\s` -/
def rws : RE := .cls isPySpace

/-- `\d` -/
def rdig : RE := .cls isDigitCh

/-! ## The module's compiled patterns -/

/-- `[A-Za-z]` -/
def asciiLetter (c : Char) : Bool :=
  let n := cn c
  (65 ≤ n && n ≤ 90) || (97 ≤ n && n ≤ 122)

/-- The HTML-marker detection regex of `_extract_visible_text`:
`<\s*(?:/?[A-Za-z]|!DOCTYPE|!--)` (no flags). -/
def tagMarkerRe : RE :=
  rcat [rchr '<', .star rws,
    raltL [rcat [ropt (rchr '/'), .cls asciiLetter], rstr "!DOCTYPE", rstr "!--"]]

/-- `[a-z0-9._%+\-]` under IGNORECASE. -/
def emailLocalC (c : Char) : Bool :=
  let l := cn (pyLower c)
  (97 ≤ l && l ≤ 122) || (48 ≤ l && l ≤ 57) || l == 46 || l == 95 || l == 37 ||
  l == 43 || l == 45

/-- `[a-z0-9.\-]` under IGNORECASE. -/
def emailDomC (c : Char) : Bool :=
  let l := cn (pyLower c)
  (97 ≤ l && l ≤ 122) || (48 ≤ l && l ≤ 57) || l == 46 || l == 45

/-- `[a-z]` under IGNORECASE. -/
def alphaLowI (c : Char) : Bool :=
  let l := cn (pyLower c)
  97 ≤ l && l ≤ 122

/-- EMAIL pattern: `\b[a-z0-9._%+\-]+@[a-z0-9.\-]+\.[a-z]{2,}\b` (IGNORECASE). -/
def emailRe : RE :=
  rcat [.wb, rplus (.cls emailLocalC), rchr '@', rplus (.cls emailDomC),
    rchr '.', rrepInf (.cls alphaLowI) 2, .wb]

/-- `[^\s)]` -/
def notWsParen (c : Char) : Bool := !(isPySpace c) && c != ')'

/-- URL pattern 1: `\bhttps?://[^\s)]+` (IGNORECASE). -/
def url1Re : RE :=
  rcat [.wb, rstri "http", ropt (rchi 's'), rstr "://", rplus (.cls notWsParen)]

/-- `[a-z0-9\-]` under IGNORECASE. -/
def urlHostC (c : Char) : Bool :=
  let l := cn (pyLower c)
  (97 ≤ l && l ≤ 122) || (48 ≤ l && l ≤ 57) || l == 45

/-- URL pattern 2: `\bwww\.[a-z0-9\-]+(\.[a-z]{2,}){1,}(/[^\s)]*)?` (IGNORECASE). -/
def url2Re : RE :=
  let tld := RE.grp 1 (rcat [rchr '.', rrepInf (.cls alphaLowI) 2])
  rcat [.wb, rstri "www", rchr '.', rplus (.cls urlHostC),
    rrepInf tld 1, ropt (.grp 2 (rcat [rchr '/', .star (.cls notWsParen)]))]

/-- The separator class of the TEL pattern: `[\s  \-–./·]`. -/
def telSepC (c : Char) : Bool :=
  let n := cn c
  isPySpace c || n == 0xA0 || n == 0x202F || n == 45 || n == 0x2013 ||
  n == 46 || n == 47 || n == 0xB7

/-- TEL pattern (IGNORECASE):
`(?:\b(?:Tel\.?|Telefon|Phone|Mob\.?|Mobile|Handy)\s*[:\-]?\s*)?`
`(?:(?:\+|00)\d{1,3}\s*(?:\(\s*0\s*\)\s*)?)?`
`(?:\(?0?\d{1,5}\)?[\s  \-–./·]?)`
`\d{2,4}(?:[\s  \-–./·]?\d{2,4}){1,4}\b` -/
def telRe : RE :=
  let label :=
    rcat [.wb,
      raltL [rcat [rstri "Tel", ropt (rchr '.')], rstri "Telefon", rstri "Phone",
        rcat [rstri "Mob", ropt (rchr '.')], rstri "Mobile", rstri "Handy"],
      .star rws, ropt (.cls (fun c => c == ':' || c == '-')), .star rws]
  let country :=
    rcat [.alt (rchr '+') (rstr "00"), rrep rdig 1 3, .star rws,
      ropt (rcat [rchr '(', .star rws, rchr '0', .star rws, rchr ')', .star rws])]
  let area :=
    rcat [ropt (rchr '('), ropt (rchr '0'), rrep rdig 1 5, ropt (rchr ')'),
      ropt (.cls telSepC)]
  rcat [ropt label, ropt country, area,
    rrep rdig 2 4, rrep (rcat [ropt (.cls telSepC), rrep rdig 2 4]) 1 4, .wb]

/-- The weekday/month alternatives of `_compile_calendar_regex`, in source
order (German full/short weekdays, English full/short weekdays, then German
full/short and English full/short month names). -/
def calAlts : List RE :=
  [rstri "montag", rstri "dienstag", rstri "mittwoch", rstri "donnerstag",
   rstri "freitag", rstri "samstag", rstri "sonntag",
   rcat [rstri "mo", ropt (rchr '.')], rcat [rstri "di", ropt (rchr '.')],
   rcat [rstri "mi", ropt (rchr '.')], rcat [rstri "do", ropt (rchr '.')],
   rcat [rstri "fr", ropt (rchr '.')], rcat [rstri "sa", ropt (rchr '.')],
   rcat [rstri "so", ropt (rchr '.')],
   rstri "monday", rstri "tuesday", rstri "wednesday", rstri "thursday",
   rstri "friday", rstri "saturday", rstri "sunday",
   rcat [rstri "mon", ropt (rchr '.')],
   rcat [rstri "tue", ropt (rchi 's'), ropt (rchr '.')],
   rcat [rstri "wed", ropt (rchr '.')],
   rcat [rstri "thu", ropt (.alt (rstri "r") (rstri "rs")), ropt (rchr '.')],
   rcat [rstri "fri", ropt (rchr '.')], rcat [rstri "sat", ropt (rchr '.')],
   rcat [rstri "sun", ropt (rchr '.')],
   rstri "januar", rstri "februar", rstri "märz", rstri "maerz", rstri "april",
   rstri "mai", rstri "juni", rstri "juli", rstri "august", rstri "september",
   rstri "oktober", rstri "november", rstri "dezember",
   rcat [rstri "jan", ropt (rchr '.')], rcat [rstri "feb", ropt (rchr '.')],
   rcat [rstri "mrz", ropt (rchr '.')], rcat [rstri "apr", ropt (rchr '.')],
   rcat [rstri "jun", ropt (rchr '.')], rcat [rstri "jul", ropt (rchr '.')],
   rcat [rstri "aug", ropt (rchr '.')], rcat [rstri "sep", ropt (rchr '.')],
   rcat [rstri "sept", ropt (rchr '.')], rcat [rstri "okt", ropt (rchr '.')],
   rcat [rstri "nov", ropt (rchr '.')], rcat [rstri "dez", ropt (rchr '.')],
   rstri "january", rstri "february", rstri "march", rstri "april", rstri "may",
   rstri "june", rstri "july", rstri "august", rstri "september",
   rstri "october", rstri "november", rstri "december",
   rcat [rstri "jan", ropt (rchr '.')], rcat [rstri "feb", ropt (rchr '.')],
   rcat [rstri "mar", ropt (rchr '.')], rcat [rstri "apr", ropt (rchr '.')],
   rcat [rstri "may", ropt (rchr '.')], rcat [rstri "jun", ropt (rchr '.')],
   rcat [rstri "jul", ropt (rchr '.')], rcat [rstri "aug", ropt (rchr '.')],
   rcat [rstri "sep", ropt (rchr '.')], rcat [rstri "sept", ropt (rchr '.')],
   rcat [rstri "oct", ropt (rchr '.')], rcat [rstri "nov", ropt (rchr '.')],
   rcat [rstri "dec", ropt (rchr '.')]]

/-- `_CAL_RE`: `\b(?:weekdays|months)\b` (IGNORECASE). -/
def calRe : RE := rcat [.wb, raltL calAlts, .wb]

/-! ## Header alias table -/

/-- `_HEADER_ALIASES` as the final Python dict: first-occurrence key order,
last-assignment values (duplicate literal keys collapsed). -/
def headerAliases : List (String × String) :=
  [("from", "FROM"), ("von", "FROM"), ("absender", "FROM"),
   ("to", "TO"), ("an", "TO"),
   ("cc", "CC"), ("kopie", "CC"), ("kopie an", "CC"),
   ("bcc", "BCC"), ("blindkopie", "BCC"), ("blindkopie an", "BCC"),
   ("subject", "SUBJECT"), ("betreff", "SUBJECT"),
   ("date", "DATE"), ("datum", "DATE"),
   ("sent", "SENT"), ("gesendet", "SENT"), ("gesendet am", "SENT"),
   ("reply-to", "REPLY_TO"), ("antwort an", "REPLY_TO"),
   ("sender", "SENDER"), ("absenderadresse", "SENDER"),
   ("de", "FROM"), ("à", "TO"), ("a", "TO"), ("cci", "BCC"),
   ("objet", "SUBJECT"), ("envoyé", "SENT"), ("envoye", "SENT"),
   ("répondre à", "REPLY_TO"), ("repondre a", "REPLY_TO"),
   ("expéditeur", "SENDER"), ("expediteur", "SENDER"),
   ("para", "TO"), ("cco", "BCC"), ("asunto", "SUBJECT"), ("fecha", "DATE"),
   ("enviado", "SENT"), ("responder a", "REPLY_TO"), ("remitente", "SENDER")]

/-- Stable insertion of `x` after all strings at least as long (replicates
Python's stable `sorted(keys, key=len, reverse=True)`). -/
def insLenDesc (x : String) : List String → List String
  | [] => [x]
  | y :: ys => if x.length ≤ y.length then y :: insLenDesc x ys else x :: y :: ys

def sortByLenDesc (xs : List String) : List String :=
  xs.foldl (fun acc x => insLenDesc x acc) []

def sortedAliasKeys : List String := sortByLenDesc (headerAliases.map (·.1))

/-- `[^\n]`, i.e. regex `.` without DOTALL. -/
def notNl (c : Char) : Bool := c != '\n'

/-- `_HEADER_KEYS_PATTERN`: `^\s*(alias1|alias2|...)\s*:\s*(.*)$` with the
aliases sorted by decreasing length (IGNORECASE). -/
def headerKeyRe : RE :=
  rcat [.star rws, .grp 1 (raltL (sortedAliasKeys.map rstri)), .star rws,
    rchr ':', .star rws, .grp 2 (.star (.cls notNl)), .eol]

/-- `_HEADER_KEYS_PATTERN.match(line)`, returning `(m.group(1), m.group(2))`. -/
def headerKeyMatch (line : String) : Option (String × String) :=
  match reMatchAt headerKeyRe line.data 0 with
  | none => none
  | some (_, caps) =>
    match capGet caps 1, capGet caps 2 with
    | some (s1, e1), some (s2, e2) =>
      some (sliceStr line.data s1 e1, sliceStr line.data s2 e2)
    | _, _ => none

def headerKeyTest (line : String) : Bool := (headerKeyMatch line).isSome

/-! ## Date normalization -/

/-- `_MONTHS_MAP` as the final Python dict (duplicate keys collapsed to the
last assignment; all duplicates carry equal values). -/
def monthsMap : List (String × Nat) :=
  [("january", 1), ("jan", 1), ("february", 2), ("feb", 2), ("march", 3),
   ("mar", 3), ("april", 4), ("apr", 4), ("may", 5), ("june", 6), ("jun", 6),
   ("july", 7), ("jul", 7), ("august", 8), ("aug", 8), ("september", 9),
   ("sep", 9), ("sept", 9), ("october", 10), ("oct", 10), ("november", 11),
   ("nov", 11), ("december", 12), ("dec", 12),
   ("januar", 1), ("februar", 2), ("maerz", 3), ("märz", 3), ("mrz", 3),
   ("mai", 5), ("juni", 6), ("juli", 7), ("oktober", 10), ("okt", 10),
   ("dezember", 12), ("dez", 12),
   ("janvier", 1), ("janv", 1), ("février", 2), ("fevrier", 2), ("févr", 2),
   ("fevr", 2), ("mars", 3), ("avril", 4), ("avr", 4), ("juin", 6),
   ("juillet", 7), ("juil", 7), ("août", 8), ("aout", 8), ("septembre", 9),
   ("octobre", 10), ("novembre", 11), ("décembre", 12), ("decembre", 12),
   ("déc", 12),
   ("enero", 1), ("ene", 1), ("febrero", 2), ("marzo", 3), ("abril", 4),
   ("abr", 4), ("mayo", 5), ("junio", 6), ("julio", 7), ("agosto", 8),
   ("ago", 8), ("septiembre", 9), ("setiembre", 9), ("octubre", 10),
   ("noviembre", 11), ("diciembre", 12), ("dic", 12)]

def replaceAllCh (cs : List Char) (a : Char) (b : List Char) : List Char :=
  cs.flatMap (fun c => if c == a then b else [c])

/-- `_norm_token`: strip, lower, drop dots, fold umlauts and accents. -/
def normToken (t : String) : String :=
  let cs := pyStripL t.data |>.map pyLower
  let cs := cs.filter (fun c => c != '.')
  let cs := replaceAllCh cs 'ä' ['a', 'e']
  let cs := replaceAllCh cs 'ö' ['o', 'e']
  let cs := replaceAllCh cs 'ü' ['u', 'e']
  let cs := replaceAllCh cs 'ß' ['s', 's']
  let cs := replaceAllCh cs 'é' ['e']
  let cs := replaceAllCh cs 'è' ['e']
  let cs := replaceAllCh cs 'ê' ['e']
  let cs := replaceAllCh cs 'á' ['a']
  let cs := replaceAllCh cs 'í' ['i']
  let cs := replaceAllCh cs 'ó' ['o']
  let cs := replaceAllCh cs 'ú' ['u']
  let cs := replaceAllCh cs 'à' ['a']
  let cs := replaceAllCh cs 'ô' ['o']
  let cs := replaceAllCh cs 'ù' ['u']
  let cs := replaceAllCh cs 'ç' ['c']
  String.mk cs

def dictGetNat (m : List (String × Nat)) (k : String) : Option Nat :=
  (m.find? (fun kv => kv.1 == k)).map (·.2)

/-- `_month_name_to_num`. -/
def monthNameToNum (name : String) : Nat :=
  (dictGetNat monthsMap (normToken name)).getD 0

/-- `[ T]` -/
def spaceOrT (c : Char) : Bool := c == ' ' || c == 'T'

/-- ISO-like: `(\d{4})-(\d{2})-(\d{2})(?:[ T](\d{2}):(\d{2})(?::(\d{2}))?)?`
(case-sensitive, as compiled without flags). -/
def dateIsoRe : RE :=
  rcat [.grp 1 (rrep rdig 4 4), rchr '-', .grp 2 (rrep rdig 2 2), rchr '-',
    .grp 3 (rrep rdig 2 2),
    ropt (rcat [.cls spaceOrT, .grp 4 (rrep rdig 2 2), rchr ':',
      .grp 5 (rrep rdig 2 2),
      ropt (rcat [rchr ':', .grp 6 (rrep rdig 2 2)])])]

/-- The optional time tail `(?:\s+(\d{1,2}):(\d{2})(?::(\d{2}))?)?`. -/
def timeTailRe : RE :=
  ropt (rcat [rplus rws, .grp 4 (rrep rdig 1 2), rchr ':',
    .grp 5 (rrep rdig 2 2), ropt (rcat [rchr ':', .grp 6 (rrep rdig 2 2)])])

/-- German numeric: `(\d{1,2})\.(\d{1,2})\.(\d{4})` plus time tail. -/
def dateDeRe : RE :=
  rcat [.grp 1 (rrep rdig 1 2), rchr '.', .grp 2 (rrep rdig 1 2), rchr '.',
    .grp 3 (rrep rdig 4 4), timeTailRe]

/-- `[A-Za-zÀ-ÿ\.]` -/
def monthNameC (c : Char) : Bool :=
  let n := cn c
  asciiLetter c || (0xC0 ≤ n && n ≤ 0xFF) || n == 46

/-- `(\d{1,2})\s+([A-Za-zÀ-ÿ\.]+)\s+(\d{4})` plus time tail. -/
def dateDMonYRe : RE :=
  rcat [.grp 1 (rrep rdig 1 2), rplus rws, .grp 2 (rplus (.cls monthNameC)),
    rplus rws, .grp 3 (rrep rdig 4 4), timeTailRe]

/-- `([A-Za-zÀ-ÿ\.]+)\s+(\d{1,2}),?\s+(\d{4})` plus time tail. -/
def dateMonDYRe : RE :=
  rcat [.grp 1 (rplus (.cls monthNameC)), rplus rws, .grp 2 (rrep rdig 1 2),
    ropt (rchr ','), rplus rws, .grp 3 (rrep rdig 4 4), timeTailRe]

def natOfDigits (s : String) : Nat :=
  s.data.foldl (fun a c => a * 10 + (cn c - 48)) 0

def padNat (w n : Nat) : String :=
  let d := Nat.toDigits 10 n
  String.mk (List.replicate (w - d.length) '0' ++ d)

/-- The captured text of group `i` of a search result, `""` when the group
did not participate (Python `m.group(i) or "00"` is handled by callers). -/
def groupStr (cs : List Char) (caps : Caps) (i : Nat) : Option String :=
  (capGet caps i).map (fun p => sliceStr cs p.1 p.2)

def isoOf (y mo d : Nat) (caps : Caps) (cs : List Char) : String :=
  let hh := ((groupStr cs caps 4).getD "00")
  let mm := ((groupStr cs caps 5).getD "00")
  let ss := ((groupStr cs caps 6).getD "00")
  padNat 4 y ++ "-" ++ padNat 2 mo ++ "-" ++ padNat 2 d ++ "T" ++
    padNat 2 (natOfDigits hh) ++ ":" ++ padNat 2 (natOfDigits mm) ++ ":" ++
    padNat 2 (natOfDigits ss)

/-- The last branch of `_try_parse_date`: `"Month DD, YYYY"`. -/
def dateMonDYBranch (cs : List Char) : String :=
  match reSearch dateMonDYRe cs with
  | some (_, _, caps) =>
    let mon := monthNameToNum ((groupStr cs caps 1).getD "")
    let d := natOfDigits ((groupStr cs caps 2).getD "")
    let y := natOfDigits ((groupStr cs caps 3).getD "")
    if mon != 0 then isoOf y mon d caps cs else ""
  | none => ""

/-- `_try_parse_date`.  Note that the first substitution applies `_CAL_RE`,
which contains month names as well as weekday names. -/
def tryParseDate (value : String) : String :=
  let cs := pyStripL value.data
  let cs := reSub calRe cs [' ']
  let cs := replaceAllCh cs ',' [' ']
  match reSearch dateIsoRe cs with
  | some (_, _, caps) =>
    let y := natOfDigits ((groupStr cs caps 1).getD "")
    let mo := natOfDigits ((groupStr cs caps 2).getD "")
    let d := natOfDigits ((groupStr cs caps 3).getD "")
    isoOf y mo d caps cs
  | none =>
  match reSearch dateDeRe cs with
  | some (_, _, caps) =>
    let d := natOfDigits ((groupStr cs caps 1).getD "")
    let mo := natOfDigits ((groupStr cs caps 2).getD "")
    let y := natOfDigits ((groupStr cs caps 3).getD "")
    isoOf y mo d caps cs
  | none =>
  match reSearch dateDMonYRe cs with
  | some (_, _, caps) =>
    let d := natOfDigits ((groupStr cs caps 1).getD "")
    let mon := monthNameToNum ((groupStr cs caps 2).getD "")
    let y := natOfDigits ((groupStr cs caps 3).getD "")
    if mon != 0 then isoOf y mon d caps cs else
    dateMonDYBranch cs
  | none => dateMonDYBranch cs

/-! ## Data model -/

structure MatchItem where
  type : String
  values : List String
  line : Nat
  cline : Nat
deriving Repr, DecidableEq

structure HeaderEntry where
  key : String
  normalized_key : String
  value : String
  line : Nat
deriving Repr, DecidableEq

structure Segment where
  start_line : Nat
  end_line : Nat
  cstart : Nat
  cend : Nat
  keys : List String
  headers : List (String × String)
  entries : List HeaderEntry
deriving Repr, DecidableEq

structure HdrResult where
  headers : List (String × String)
  headers_list : List HeaderEntry
  segments : List Segment
deriving Repr, DecidableEq

/-- A cluster dict.  `cstart`/`cend` are `none` until `_normalize_cluster_lines`
adds them (header clusters never carry them). -/
structure Cluster where
  start_line : Nat
  end_line : Nat
  items : List MatchItem
  cstart : Option Nat := none
  cend : Option Nat := none
deriving Repr, DecidableEq

structure BodyWindow where
  start_line : Nat
  end_line : Nat
  text : String
deriving Repr, DecidableEq

/-- `body_window` is only present for the bottom-up strategy. -/
structure ParseResult where
  clusters : List Cluster
  strategy : String
  body_window : Option BodyWindow
deriving Repr, DecidableEq

/-- A per-type entry: regex matches are `(values, line, cline)` triples, while
header-derived entries are `[values, line]` pairs until `_normalize_triples`. -/
inductive PTEntry where
  | triple (values : List String) (line cline : Nat)
  | pair (values : List String) (line : Nat)
deriving Repr, DecidableEq

/-! ## Ordered string dictionaries (Python `dict` semantics) -/

def dictSet (m : List (String × String)) (k v : String) : List (String × String) :=
  if m.any (fun kv => kv.1 == k) then
    m.map (fun kv => if kv.1 == k then (k, v) else kv)
  else m ++ [(k, v)]

def dictGet? (m : List (String × String)) (k : String) : Option String :=
  (m.find? (fun kv => kv.1 == k)).map (·.2)

abbrev PTMap := List (String × List PTEntry)

def ptGet? (m : PTMap) (k : String) : Option (List PTEntry) :=
  (m.find? (fun kv => kv.1 == k)).map (·.2)

/-- Append to the list stored at an existing key. -/
def ptAppend (m : PTMap) (k : String) (e : PTEntry) : PTMap :=
  m.map (fun kv => if kv.1 == k then (kv.1, kv.2 ++ [e]) else kv)

def dedupAux (seen : List String) : List String → List String
  | [] => []
  | s :: rest =>
    if seen.contains s then dedupAux seen rest else s :: dedupAux (s :: seen) rest

/-- First-seen-order deduplication (the `dedup`/`seen` loop of the source). -/
def dedupStrs (xs : List String) : List String := dedupAux [] xs

def insertStrAsc (x : String) : List String → List String
  | [] => [x]
  | y :: ys => if y ≤ x then y :: insertStrAsc x ys else x :: y :: ys

/-- Python `sorted` on strings (codepoint-lexicographic). -/
def sortStrs (xs : List String) : List String :=
  xs.foldl (fun acc x => insertStrAsc x acc) []

/-! ## `parse_header_block` -/

/-- `re.match(r"^[\t ]+", nxt)`. -/
def startsWithTabSpace (s : String) : Bool :=
  match s.data with
  | c :: _ => c == '\t' || c == ' '
  | [] => false

/-- The continuation scan over the line suffix starting at index `j`:
append ` ` + stripped line for every line that begins with a tab or space,
and stop at the first blank line or any line that does not begin with
whitespace (header-key or not). -/
def collectContL : List String → Nat → String → String × Nat
  | [], j, value => (value, j)
  | nxt :: rest, j, value =>
    if pyStrip nxt = "" then (value, j)
    else if startsWithTabSpace nxt then
      collectContL rest (j + 1) (value ++ " " ++ pyStrip nxt)
    else (value, j)

/-- The continuation loop of `parse_header_block` (`while j < len(lines)`),
returning the accumulated value and the index of the first unconsumed line. -/
def collectCont (lines : List String) (j : Nat) (value : String) : String × Nat :=
  collectContL (lines.drop j) j value

/-- State threaded by the inner `while True` loop of `parse_header_block`. -/
structure SegState where
  i : Nat
  compact : Nat
  segItems : List HeaderEntry
  segHeaders : List (String × String)
  headers : List (String × String)
  hlist : List HeaderEntry
deriving Repr

/-- The inner `while True` loop: consume one header (with continuations),
record it, and continue while the next unconsumed line is a header-key line.
`key`/`value` are `m.group(1)` and `m.group(2).strip()` of the current line
`i`.  `fuel` bounds the iteration count; since the line index strictly
increases at every iteration, the `lines.length + 1` supplied by the caller
can never run out. -/
def segLoopF (lines : List String) :
    Nat → Nat → Nat → String → String → List HeaderEntry →
    List (String × String) → List (String × String) → List HeaderEntry →
    SegState
  | 0, i, compact, _, _, segItems, segHeaders, headers, hlist =>
    ⟨i, compact, segItems, segHeaders, headers, hlist⟩
  | fuel + 1, i, compact, key, value, segItems, segHeaders, headers, hlist =>
    let cc := collectCont lines (i + 1) value
    let value2 := cc.1
    let j := cc.2
    let normKey := (dictGet? headerAliases (pyLowerStr key)).getD (pyUpperStr key)
    let segHeaders := dictSet segHeaders normKey value2
    let segHeaders :=
      if normKey == "DATE" || normKey == "SENT" then
        let iso := tryParseDate value2
        if iso ≠ "" then dictSet segHeaders (normKey ++ "_ISO") iso else segHeaders
      else segHeaders
    let entry : HeaderEntry := ⟨key, normKey, value2, i + 1⟩
    let segItems := segItems ++ [entry]
    let headers :=
      if normKey == "DATE" || normKey == "SENT" then
        let iso := tryParseDate value2
        if iso ≠ "" then dictSet headers (normKey ++ "_ISO") iso else headers
      else headers
    let headers := dictSet headers normKey value2
    let hlist := hlist ++ [entry]
    match (lines.drop j).head? with
    | none => ⟨j, compact, segItems, segHeaders, headers, hlist⟩
    | some raw =>
      let line := pyRstripNl raw
      match headerKeyMatch line with
      | none => ⟨j, compact, segItems, segHeaders, headers, hlist⟩
      | some kv =>
        let compact2 := if pyStrip line ≠ "" then compact + 1 else compact
        segLoopF lines fuel j compact2 kv.1 (pyStrip kv.2) segItems segHeaders
          headers hlist

/-- The outer line scan of `parse_header_block` (`while i < len(lines)`),
with the same fuel discipline: the line index strictly increases at every
iteration, so `lines.length + 1` iterations always suffice. -/
def hbLoopF (lines : List String) :
    Nat → Nat → Nat → List Segment → List (String × String) →
    List HeaderEntry → HdrResult
  | 0, _, _, segs, headers, hlist => ⟨headers, hlist, segs⟩
  | fuel + 1, i, compact, segs, headers, hlist =>
    match (lines.drop i).head? with
    | none => ⟨headers, hlist, segs⟩
    | some raw =>
      let line := pyRstripNl raw
      let compact2 := if pyStrip line ≠ "" then compact + 1 else compact
      match headerKeyMatch line with
      | none => hbLoopF lines fuel (i + 1) compact2 segs headers hlist
      | some kv =>
        let st := segLoopF lines (lines.length + 1) i compact2 kv.1
          (pyStrip kv.2) [] [] headers hlist
        let segEnd := if i < st.i then st.i - 1 else st.i
        let cend := compact2 +
          ((lines.drop (i + 1)).take (segEnd - i)).countP (fun l => pyStrip l ≠ "")
        let keys := sortStrs (dedupStrs (st.segItems.map (·.normalized_key)))
        let seg : Segment :=
          ⟨i + 1, segEnd + 1, compact2, cend, keys, st.segHeaders, st.segItems⟩
        hbLoopF lines fuel st.i st.compact (segs ++ [seg]) st.headers st.hlist

/-- `parse_header_block`. -/
def parseHeaderBlock (body : String) : HdrResult :=
  let lines := splitLines body
  hbLoopF lines (lines.length + 1) 0 0 [] [] []

/-! ## `compile_patterns` and `apply_regexes_per_line` -/

/-- `compile_patterns`. -/
def compilePatterns : List (String × List RE) :=
  [("EMAIL", [emailRe]), ("URL", [url1Re, url2Re]), ("TEL", [telRe])]

/-- One line's hits for a pattern list: all `finditer` group-0 strings of each
regex, concatenated, then deduplicated in first-seen order. -/
def lineHits (regs : List RE) (line : String) : List String :=
  dedupStrs (regs.foldl (fun h re => h ++ findAllStrs re line.data) [])

/-- The body of the `for key, regs in patterns.items()` loop for one line:
skip TEL on calendar lines, otherwise append a `(values, line, cline)` entry
when the line has hits. -/
def lineStep (cal : Bool) (idx cidx : Nat) (line : String) (r : PTMap)
    (kv : String × List RE) : PTMap :=
  if kv.1 == "TEL" && cal then r
  else
    let hits := lineHits kv.2 line
    if hits.isEmpty then r else ptAppend r kv.1 (.triple hits idx cidx)

/-- The per-line loop of `apply_regexes_per_line`: strip each line, skip blank
lines (no compact increment), detect calendar lines, and run `lineStep` over
the pattern types. -/
def applyLinesAux (pats : List (String × List RE)) :
    List String → Nat → Nat → PTMap → PTMap
  | [], _, _, res => res
  | raw :: rest, idx, cidx, res =>
    let line := pyStrip raw
    if line = "" then applyLinesAux pats rest (idx + 1) cidx res
    else
      let cidx2 := cidx + 1
      let cal := reTest calRe line.data
      applyLinesAux pats rest (idx + 1) cidx2
        (pats.foldl (lineStep cal idx cidx2 line) res)

/-- `apply_regexes_per_line`. -/
def applyRegexesPerLine (body : String) (pats : List (String × List RE)) : PTMap :=
  (applyLinesAux pats (splitLines body) 1 0 (pats.map (fun kv => (kv.1, [])))).filter
    (fun kv => !kv.2.isEmpty)

/-! ## Flattening, clustering, triple normalization -/

def insertByCline (x : MatchItem) : List MatchItem → List MatchItem
  | [] => [x]
  | y :: ys => if y.cline ≤ x.cline then y :: insertByCline x ys else x :: y :: ys

/-- Python's stable `list.sort(key=lambda x: x.cline)`. -/
def sortByCline (xs : List MatchItem) : List MatchItem :=
  xs.foldl (fun acc x => insertByCline x acc) []

/-- `flatten_entries`.  At its call site every entry is a normalized triple;
`pair` entries (which would make the Python tuple unpacking raise) are
skipped to keep the function total. -/
def flattenEntries (perType : PTMap) : List MatchItem :=
  sortByCline (perType.flatMap (fun kv =>
    kv.2.filterMap (fun e =>
      match e with
      | .triple vals line cline => some ⟨kv.1, vals, line, cline⟩
      | .pair _ _ => none)))

def clusterStep (maxGap : Nat) : List MatchItem → Cluster → List Cluster → List Cluster
  | [], cur, acc => acc ++ [cur]
  | e :: rest, cur, acc =>
    if e.cline - cur.end_line ≤ maxGap then
      clusterStep maxGap rest
        { cur with end_line := e.cline, items := cur.items ++ [e] } acc
    else
      clusterStep maxGap rest ⟨e.cline, e.cline, [e], none, none⟩ (acc ++ [cur])

/-- `cluster_by_lines` (entry `cline`s; Python's possibly-negative difference
`e.cline - end <= max_gap` coincides with truncated subtraction on the sorted
input). -/
def clusterByLines (entries : List MatchItem) (maxGap : Nat) : List Cluster :=
  match entries with
  | [] => []
  | e :: rest => clusterStep maxGap rest ⟨e.cline, e.cline, [e], none, none⟩ []

def itemsMinLine (it : MatchItem) (rest : List MatchItem) : Nat :=
  rest.foldl (fun a x => min a x.line) it.line

def itemsMaxLine (it : MatchItem) (rest : List MatchItem) : Nat :=
  rest.foldl (fun a x => max a x.line) it.line

/-- `_normalize_cluster_lines`: save the compact span in `cstart`/`cend` and
replace `start_line`/`end_line` by the min/max original `line` of the items. -/
def normalizeClusterLines (clusters : List Cluster) : List Cluster :=
  clusters.map (fun c =>
    match c.items with
    | [] => c
    | it :: rest =>
      { c with
        cstart := some c.start_line, cend := some c.end_line,
        start_line := itemsMinLine it rest, end_line := itemsMaxLine it rest })

/-- The triple fixup of `_normalize_triples`: a 2-element `[vals, line]`
entry gets `cline := line`; triples stay as they are. -/
def padTriple : PTEntry → PTEntry
  | .triple v l c => .triple v l c
  | .pair v l => .triple v l l

/-- `_normalize_triples`: `HEADER_SEGMENT` entries stay as-is; other pairs
`[vals, line]` become `[vals, line, line]`; keys whose list is empty are
dropped. -/
def normalizeTriples (pt : PTMap) : PTMap :=
  pt.filterMap (fun kv =>
    if kv.1 == "HEADER_SEGMENT" then some kv
    else
      let fixed := kv.2.map padTriple
      if fixed.isEmpty then none else some (kv.1, fixed))

/-! ## `_extract_visible_text` -/

/-- `<\s*([A-Za-z0-9._%+\-]+@[A-Za-z0-9.\-]+\.[A-Za-z]{2,})\s*>` (no flags):
protection of angle-bracketed email addresses. -/
def protectEmailRe : RE :=
  let localC : Char → Bool := fun c =>
    asciiLetter c || isDigitCh c || c == '.' || c == '_' || c == '%' ||
    c == '+' || c == '-'
  let domC : Char → Bool := fun c =>
    asciiLetter c || isDigitCh c || c == '.' || c == '-'
  rcat [rchr '<', .star rws,
    .grp 1 (rcat [rplus (.cls localC), rchr '@', rplus (.cls domC), rchr '.',
      rrepInf (.cls asciiLetter) 2]),
    .star rws, rchr '>']

/-- `<script[\s\S]*?</script>` (IGNORECASE). -/
def scriptRe : RE :=
  rcat [rstri "<script", .starL (.cls (fun _ => true)), rstri "</script>"]

/-- `<style[\s\S]*?</style>` (IGNORECASE). -/
def styleRe : RE :=
  rcat [rstri "<style", .starL (.cls (fun _ => true)), rstri "</style>"]

/-- `<(br|br/|br\s*/)>` (IGNORECASE). -/
def brRe : RE :=
  rcat [rchr '<',
    .grp 1 (raltL [rstri "br", rstri "br/",
      rcat [rstri "br", .star rws, rchr '/']]),
    rchr '>']

/-- `</?(p|div|li|tr|td|th|table|h[1-6])[^>]*>` (IGNORECASE). -/
def blockTagRe : RE :=
  rcat [rchr '<', ropt (rchr '/'),
    .grp 1 (raltL [rchi 'p', rstri "div", rstri "li", rstri "tr", rstri "td",
      rstri "th", rstri "table",
      rcat [rchi 'h', .cls (fun c => 49 ≤ cn c && cn c ≤ 54)]]),
    .star (.cls (fun c => c != '>')), rchr '>']

/-- `<a[^>]*>(.*?)</a>` (IGNORECASE, DOTALL). -/
def anchorRe : RE :=
  rcat [rstri "<a", .star (.cls (fun c => c != '>')), rchr '>',
    .grp 1 (.starL (.cls (fun _ => true))), rstri "</a>"]

/-- `<[^>]+>` -/
def anyTagRe : RE :=
  rcat [rchr '<', rplus (.cls (fun c => c != '>')), rchr '>']

/-- `\r\n|\r` -/
def crRe : RE := .alt (rstr "\r\n") (rstr "\r")

/-- `[ \t]{2,}` -/
def spaceRunRe : RE :=
  let sp : RE := .cls (fun c => c == ' ' || c == '\t')
  rrepInf sp 2

/-- `\n{3,}` -/
def nlRunRe : RE := rrepInf (rchr '\n') 3

/-- ` ` (U+00A0) -/
def nbspRe : RE := rchr (Char.ofNat 0xA0)

def hexDigitVal (c : Char) : Option Nat :=
  let n := cn c
  if 48 ≤ n && n ≤ 57 then some (n - 48)
  else if 97 ≤ n && n ≤ 102 then some (n - 87)
  else if 65 ≤ n && n ≤ 70 then some (n - 55)
  else none

def digitsToNat (base : Nat) (ds : List Char) : Nat :=
  ds.foldl (fun a c => a * base + (hexDigitVal c).getD 0) 0

/-- Number of leading digits (in the given base). -/
def countDigits (cs : List Char) (base : Nat) : Nat :=
  match cs with
  | c :: rest =>
    match hexDigitVal c with
    | some v => if v < base then countDigits rest base + 1 else 0
    | none => 0
  | [] => 0

def namedEntities : List (String × List Char) :=
  [("amp;", ['&']), ("lt;", ['<']), ("gt;", ['>']),
   ("quot;", [Char.ofNat 34]), ("apos;", [Char.ofNat 39]),
   ("nbsp;", [Char.ofNat 0xA0])]

def entityPrefixMatch (cs : List Char) : Option (List Char × List Char) :=
  (namedEntities.filterMap (fun kv =>
    if kv.1.data.isPrefixOf cs then some (kv.2, cs.drop kv.1.data.length)
    else none)).head?

/-- A working subset of Python `html.unescape`: numeric character references
and the most common named entities; anything else is left untouched (Python
likewise leaves unknown entity names untouched). -/
def htmlUnescapeAux : Nat → List Char → List Char
  | 0, cs => cs
  | _ + 1, [] => []
  | f + 1, '&' :: rest =>
    match rest with
    | '#' :: 'x' :: ds =>
      let k := countDigits ds 16
      if k > 0 && ds[k]? == some ';' then
        Char.ofNat (digitsToNat 16 (ds.take k)) :: htmlUnescapeAux f (ds.drop (k + 1))
      else '&' :: htmlUnescapeAux f rest
    | '#' :: ds =>
      let k := countDigits ds 10
      if k > 0 && ds[k]? == some ';' then
        Char.ofNat (digitsToNat 10 (ds.take k)) :: htmlUnescapeAux f (ds.drop (k + 1))
      else '&' :: htmlUnescapeAux f rest
    | _ =>
      match entityPrefixMatch rest with
      | some (repl, rest2) => repl ++ htmlUnescapeAux f rest2
      | none => '&' :: htmlUnescapeAux f rest
  | f + 1, c :: rest => c :: htmlUnescapeAux f rest

def htmlUnescape (cs : List Char) : List Char := htmlUnescapeAux (cs.length + 1) cs

/-- `_extract_visible_text`: identity on strings without tag-like markers;
otherwise the HTML-stripping pipeline. -/
def extractVisibleText (s : String) : String :=
  if reTest tagMarkerRe s.data then
    let cs := s.data
    let cs := reSubG1 protectEmailRe cs
    let cs := reSub scriptRe cs [' ']
    let cs := reSub styleRe cs [' ']
    let cs := reSub brRe cs ['\n']
    let cs := reSub blockTagRe cs ['\n']
    let cs := reSubG1 anchorRe cs
    let cs := reSub anyTagRe cs [' ']
    let cs := htmlUnescape cs
    let cs := reSub crRe cs ['\n']
    let cs := reSub nbspRe cs [' ']
    let cs := reSub spaceRunRe cs [' ']
    let cs := reSub nlRunRe cs ['\n', '\n']
    String.mk (pyStripL cs)
  else s

/-! ## `parse_email_body` -/

/-- Loose Python call-site values for the `body` argument: a string, `None`,
or any non-string object. -/
inductive PyVal where
  | str (s : String)
  | pyNone
  | otherNonStr
deriving Repr, DecidableEq

/-- The coercion at the top of `parse_email_body`:
`if not isinstance(body, str): body = ""`. -/
def coerceBody : PyVal → String
  | .str s => s
  | .pyNone => ""
  | .otherNonStr => ""

/-- The per-type map assembled by `parse_email_body` before clustering: regex
matches, plus `[emails, line]` pairs for every header value containing email
addresses, plus `HEADER_SEGMENT` pairs, run through `_normalize_triples`. -/
def perTypeOf (body : String) : PTMap :=
  let hdr := parseHeaderBlock body
  let pt := applyRegexesPerLine body compilePatterns
  let pt := if (ptGet? pt "EMAIL").isSome then pt else pt ++ [("EMAIL", [])]
  let pt := hdr.headers_list.foldl (fun m h =>
    let emails := findAllStrs emailRe h.value.data
    if emails.isEmpty then m else ptAppend m "EMAIL" (.pair emails h.line)) pt
  let pt := if (ptGet? pt "HEADER_SEGMENT").isSome then pt
    else pt ++ [("HEADER_SEGMENT", [])]
  let pt := hdr.segments.foldl (fun m s =>
    ptAppend m "HEADER_SEGMENT" (.pair s.keys s.start_line)) pt
  normalizeTriples pt

/-- The flat, cline-sorted entity list that enters clustering (all entries of
`perTypeOf` except `HEADER_SEGMENT`). -/
def flatEntriesOf (body : String) : List MatchItem :=
  flattenEntries ((perTypeOf body).filter (fun kv => kv.1 != "HEADER_SEGMENT"))

/-- The regex-match clusters with normalized line spans. -/
def bodyClustersOf (body : String) (maxGap : Nat) : List Cluster :=
  normalizeClusterLines (clusterByLines (flatEntriesOf body) maxGap)

/-- The header-segment clusters (one per segment, using segment line bounds
and `cline := entry line`). -/
def headerClustersOf (body : String) : List Cluster :=
  (parseHeaderBlock body).segments.map (fun seg =>
    { start_line := seg.start_line, end_line := seg.end_line,
      items := seg.entries.map (fun ent =>
        ⟨ent.normalized_key, [ent.value], ent.line, ent.line⟩) })

def insClusterByStart (x : Cluster) : List Cluster → List Cluster
  | [] => [x]
  | y :: ys =>
    if y.start_line ≤ x.start_line then y :: insClusterByStart x ys
    else x :: y :: ys

/-- Python's stable `sorted(clusters, key=lambda c: c["start_line"])`. -/
def sortClustersByStart (xs : List Cluster) : List Cluster :=
  xs.foldl (fun acc x => insClusterByStart x acc) []

/-- The merged, start-sorted cluster list. -/
def allClustersOf (body : String) (maxGap : Nat) : List Cluster :=
  sortClustersByStart (bodyClustersOf body maxGap ++ headerClustersOf body)

def headerKeySet : List String :=
  ["FROM", "TO", "CC", "BCC", "SUBJECT", "DATE", "SENT", "REPLY_TO", "SENDER"]

/-- A cluster is a header cluster when any item's type is a header tag. -/
def isHeaderCluster (c : Cluster) : Bool :=
  c.items.any (fun it => headerKeySet.contains it.type)

/-- Collect elements until (and including) the first one satisfying `p`. -/
def takeUntilIncl (p : α → Bool) : List α → List α
  | [] => []
  | x :: rest => if p x then [x] else x :: takeUntilIncl p rest

/-- The bottom-up walk: visit clusters from the last upwards, appending each,
and stop at the first header cluster (the Python `while i >= 0` loop). -/
def bottomUpSelected (cs : List Cluster) : List Cluster :=
  takeUntilIncl isHeaderCluster cs.reverse

/-- `cut_start_line`/`cut_end_line`: the bounds of the boundary header
cluster (the last appended cluster, re-checked for header-ness), else zero. -/
def cutBounds (sel : List Cluster) : Nat × Nat :=
  match sel.getLast? with
  | some c => if isHeaderCluster c then (c.start_line, c.end_line) else (0, 0)
  | none => (0, 0)

/-- `while body_slice and not body_slice[0].strip(): body_slice.pop(0)`. -/
def trimFront : List String → List String
  | [] => []
  | l :: rest => if pyStrip l = "" then trimFront rest else l :: rest

/-- The pop-from-the-end loop, i.e. `trimFront` on the reversed list. -/
def trimBack (ls : List String) : List String := (trimFront ls.reverse).reverse

/-- The `for k in range(start_idx, len(lines_all))` scan for the first
non-blank line, as an absolute index. -/
def firstNonblankFrom (lines : List String) (k : Nat) : Option Nat :=
  match (lines.drop k).findIdx? (fun l => pyStrip l ≠ "") with
  | some d => some (k + d)
  | none => none

/-- The `body_window` computation of the bottom-up branch. -/
def mkBodyWindow (linesAll : List String) (cutStart : Nat) : BodyWindow :=
  let startIdx := if cutStart > 0 then cutStart - 1 else 0
  let slice := trimBack (trimFront (linesAll.drop startIdx))
  if slice.isEmpty then ⟨0, 0, ""⟩
  else
    let visStart :=
      match firstNonblankFrom linesAll startIdx with
      | some k => k + 1
      | none => startIdx + 1
    ⟨visStart, linesAll.length, String.intercalate "\n" slice⟩

/-- `parse_email_body` after the input coercion. -/
def parseEmailBodyS (body0 : String) (maxGap : Nat) (strategy : String) :
    ParseResult :=
  let body := extractVisibleText body0
  let allC := allClustersOf body maxGap
  let mode := if strategy = "" then "bottom-up" else pyLowerStr strategy
  if mode = "bottom-up" then
    let sel := bottomUpSelected allC
    let cut := cutBounds sel
    let w := mkBodyWindow (splitLines body) cut.1
    ⟨sel.reverse, "bottom-up", some w⟩
  else ⟨allC, "top-down", none⟩

/-- `parse_email_body` (defaults `max_gap = 1`, `strategy = "bottom-up"`). -/
def parse_email_body (v : PyVal) (maxGap : Nat := 1)
    (strategy : String := "bottom-up") : ParseResult :=
  parseEmailBodyS (coerceBody v) maxGap strategy

/-! ## Characterization of the per-line matcher -/

def countNonblank (ls : List String) : Nat := ls.countP (fun l => pyStrip l ≠ "")

/-- The non-blank lines of a body, each with its 1-based original index and
compact index: the enumeration implicit in `apply_regexes_per_line`. -/
def compactEnum : List String → Nat → Nat → List (Nat × Nat × String)
  | [], _, _ => []
  | raw :: rest, idx, cidx =>
    if pyStrip raw = "" then compactEnum rest (idx + 1) cidx
    else (idx, cidx + 1, pyStrip raw) :: compactEnum rest (idx + 1) (cidx + 1)

/-- The entry `apply_regexes_per_line` would record for one enumerated line
and one pattern type, given the line's calendar flag. -/
def lineEntryC (cal : Bool) (k : String) (regs : List RE)
    (e : Nat × Nat × String) : Option PTEntry :=
  if k == "TEL" && cal then none
  else
    let hits := lineHits regs e.2.2
    if hits.isEmpty then none else some (.triple hits e.1 e.2.1)

/-- `lineEntryC` with the calendar flag computed from the line. -/
def lineEntry (k : String) (regs : List RE) (e : Nat × Nat × String) :
    Option PTEntry :=
  lineEntryC (reTest calRe e.2.2.data) k regs e

/-- Comparator modelled from the spec's words, for the "unaffected" half of
the TEL-suppression claim: the same per-line recording with **no** calendar
suppression at all. -/
def lineEntryNoSup (k : String) (regs : List RE) (e : Nat × Nat × String) :
    Option PTEntry :=
  lineEntryC false k regs e

theorem compactEnum_bounds (lines : List String) (idx cidx : Nat) :
    ∀ e ∈ compactEnum lines idx cidx, idx ≤ e.1 ∧ cidx + 1 ≤ e.2.1 := by
  induction lines generalizing idx cidx with
  | nil => intro e he; simp [compactEnum] at he
  | cons raw rest ih =>
    intro e he
    simp only [compactEnum] at he
    split at he
    · have := ih (idx + 1) cidx e he; omega
    · rcases List.mem_cons.1 he with he | he
      · subst he; simp
      · have := ih (idx + 1) (cidx + 1) e he; omega

theorem compactEnum_pairwise (lines : List String) (idx cidx : Nat) :
    (compactEnum lines idx cidx).Pairwise
      (fun a b => a.1 < b.1 ∧ a.2.1 < b.2.1) := by
  induction lines generalizing idx cidx with
  | nil => simp [compactEnum]
  | cons raw rest ih =>
    simp only [compactEnum]
    split
    · exact ih _ _
    · refine List.pairwise_cons.2 ⟨?_, ih _ _⟩
      intro e he
      have := compactEnum_bounds rest (idx + 1) (cidx + 1) e he
      constructor <;> simp <;> omega

theorem compactEnum_mem (lines : List String) (idx cidx : Nat) :
    ∀ e ∈ compactEnum lines idx cidx,
      ∃ raw, lines[e.1 - idx]? = some raw ∧ e.2.2 = pyStrip raw ∧
        pyStrip raw ≠ "" ∧ idx ≤ e.1 ∧
        e.2.1 = cidx + countNonblank (lines.take (e.1 - idx + 1)) := by
  induction lines generalizing idx cidx with
  | nil => intro e he; simp [compactEnum] at he
  | cons raw rest ih =>
    intro e he
    simp only [compactEnum] at he
    split at he
    case isTrue hblank =>
      obtain ⟨r, h1, h2, h3, h4, h5⟩ := ih (idx + 1) cidx e he
      have hgt : idx + 1 ≤ e.1 := (compactEnum_bounds rest (idx + 1) cidx e he).1
      refine ⟨r, ?_, h2, h3, by omega, ?_⟩
      · rw [List.getElem?_cons, if_neg (by omega),
          show e.1 - idx - 1 = e.1 - (idx + 1) by omega]
        exact h1
      · rw [show e.1 - idx + 1 = (e.1 - (idx + 1) + 1) + 1 by omega,
          List.take_succ_cons]
        simp [countNonblank, List.countP_cons, hblank] at h5 ⊢
        omega
    case isFalse hblank =>
      rcases List.mem_cons.1 he with he | he
      · subst he
        refine ⟨raw, by simp, rfl, hblank, le_refl _, ?_⟩
        simp [countNonblank, List.countP_cons, hblank]
      · obtain ⟨r, h1, h2, h3, h4, h5⟩ := ih (idx + 1) (cidx + 1) e he
        have hgt : idx + 1 ≤ e.1 := (compactEnum_bounds rest (idx + 1) (cidx + 1) e he).1
        refine ⟨r, ?_, h2, h3, by omega, ?_⟩
        · rw [List.getElem?_cons, if_neg (by omega),
            show e.1 - idx - 1 = e.1 - (idx + 1) by omega]
          exact h1
        · rw [show e.1 - idx + 1 = (e.1 - (idx + 1) + 1) + 1 by omega,
            List.take_succ_cons]
          simp [countNonblank, List.countP_cons, hblank] at h5 ⊢
          omega

theorem ptGet?_cons (kv : String × List PTEntry) (m : PTMap) (k : String) :
    ptGet? (kv :: m) k = if kv.1 == k then some kv.2 else ptGet? m k := by
  unfold ptGet?
  rw [List.find?_cons]
  cases h : kv.1 == k <;> simp [h]

theorem ptGet?_ptAppend_self (m : PTMap) (k : String) (e : PTEntry) :
    ptGet? (ptAppend m k e) k = (ptGet? m k).map (· ++ [e]) := by
  induction m with
  | nil => rfl
  | cons kv m ih =>
    simp only [ptAppend, List.map_cons] at *
    rw [ptGet?_cons, ptGet?_cons]
    by_cases hk : kv.1 = k <;> simp_all [beq_iff_eq]

theorem ptGet?_ptAppend_other (m : PTMap) {k k' : String} (e : PTEntry)
    (h : k' ≠ k) : ptGet? (ptAppend m k' e) k = ptGet? m k := by
  induction m with
  | nil => rfl
  | cons kv m ih =>
    simp only [ptAppend, List.map_cons] at *
    rw [ptGet?_cons, ptGet?_cons]
    by_cases hk' : kv.1 = k' <;> by_cases hk : kv.1 = k <;>
      simp_all [beq_iff_eq]

theorem ptGet?_eq_none_of_not_mem (m : PTMap) (k : String)
    (h : k ∉ m.map (·.1)) : ptGet? m k = none := by
  induction m with
  | nil => rfl
  | cons kv m ih =>
    simp only [List.map_cons, List.mem_cons] at h
    push_neg at h
    rw [ptGet?_cons, if_neg (by simpa using Ne.symm h.1)]
    exact ih h.2

theorem map_fst_ptAppend (m : PTMap) (k : String) (e : PTEntry) :
    (ptAppend m k e).map (·.1) = m.map (·.1) := by
  induction m with
  | nil => rfl
  | cons kv m ih =>
    simp only [ptAppend, List.map_cons] at *
    split <;> simp_all [beq_iff_eq]

theorem map_fst_lineStep (cal : Bool) (idx cidx : Nat) (line : String)
    (r : PTMap) (kv : String × List RE) :
    (lineStep cal idx cidx line r kv).map (·.1) = r.map (·.1) := by
  unfold lineStep
  split
  · rfl
  · dsimp only
    split
    · rfl
    · exact map_fst_ptAppend r kv.1 _

theorem map_fst_foldl_lineStep (pats : List (String × List RE)) (cal : Bool)
    (idx cidx : Nat) (line : String) (r : PTMap) :
    ((pats.foldl (lineStep cal idx cidx line) r).map (·.1)) = r.map (·.1) := by
  induction pats generalizing r with
  | nil => rfl
  | cons kv pats ih =>
    simp only [List.foldl_cons]
    rw [ih, map_fst_lineStep]

theorem lineStep_get_other (cal : Bool) (idx cidx : Nat) (line : String)
    (r : PTMap) (kv : String × List RE) (k : String) (hne : kv.1 ≠ k) :
    ptGet? (lineStep cal idx cidx line r kv) k = ptGet? r k := by
  unfold lineStep
  split
  · rfl
  · dsimp only
    split
    · rfl
    · exact ptGet?_ptAppend_other r _ hne

theorem foldl_lineStep_get_not_mem (pats : List (String × List RE)) (cal : Bool)
    (idx cidx : Nat) (line : String) (r : PTMap) (k : String)
    (h : k ∉ pats.map (·.1)) :
    ptGet? (pats.foldl (lineStep cal idx cidx line) r) k = ptGet? r k := by
  induction pats generalizing r with
  | nil => rfl
  | cons kv pats ih =>
    simp only [List.map_cons, List.mem_cons] at h
    push_neg at h
    simp only [List.foldl_cons]
    rw [ih _ h.2, lineStep_get_other _ _ _ _ _ _ _ (Ne.symm h.1)]

theorem foldl_lineStep_get (pats : List (String × List RE)) (cal : Bool)
    (idx cidx : Nat) (line : String) (r : PTMap) (k : String) (regs : List RE)
    (hnd : (pats.map (·.1)).Nodup) (hmem : (k, regs) ∈ pats) :
    ptGet? (pats.foldl (lineStep cal idx cidx line) r) k =
      (ptGet? r k).map (· ++ (lineEntryC cal k regs (idx, cidx, line)).toList) := by
  induction pats generalizing r with
  | nil => simp at hmem
  | cons kv pats ih =>
    simp only [List.map_cons, List.nodup_cons] at hnd
    simp only [List.foldl_cons]
    rcases List.mem_cons.1 hmem with heq | hmem'
    · subst heq
      rw [foldl_lineStep_get_not_mem _ _ _ _ _ _ _ hnd.1]
      unfold lineStep lineEntryC
      dsimp only
      split
      · simp
      · split
        · simp
        · rw [ptGet?_ptAppend_self]
          simp [Option.toList]
    · have hne : kv.1 ≠ k := by
        intro hk
        exact hnd.1 (hk ▸ (List.mem_map.2 ⟨(k, regs), hmem', rfl⟩))
      rw [ih _ hnd.2 hmem', lineStep_get_other _ _ _ _ _ _ _ hne]

theorem map_fst_applyLinesAux (pats : List (String × List RE))
    (lines : List String) (idx cidx : Nat) (r : PTMap) :
    (applyLinesAux pats lines idx cidx r).map (·.1) = r.map (·.1) := by
  induction lines generalizing idx cidx r with
  | nil => rfl
  | cons raw rest ih =>
    unfold applyLinesAux
    dsimp only
    split
    · exact ih _ _ _
    · rw [ih _ _ _, map_fst_foldl_lineStep]

theorem applyLinesAux_get (pats : List (String × List RE)) (k : String)
    (regs : List RE) (hnd : (pats.map (·.1)).Nodup) (hmem : (k, regs) ∈ pats)
    (lines : List String) (idx cidx : Nat) (r : PTMap) :
    ptGet? (applyLinesAux pats lines idx cidx r) k =
      (ptGet? r k).map
        (· ++ (compactEnum lines idx cidx).filterMap (lineEntry k regs)) := by
  induction lines generalizing idx cidx r with
  | nil =>
    show ptGet? r k = _
    rw [show compactEnum [] idx cidx = [] from rfl]
    cases ptGet? r k <;> simp
  | cons raw rest ih =>
    unfold applyLinesAux compactEnum
    dsimp only
    split
    · exact ih _ _ _
    · rw [ih _ _ _,
        foldl_lineStep_get pats _ idx (cidx + 1) (pyStrip raw) r k regs hnd hmem,
        show lineEntryC (reTest calRe (pyStrip raw).data) k regs
            (idx, cidx + 1, pyStrip raw) =
          lineEntry k regs (idx, cidx + 1, pyStrip raw) from rfl,
        List.filterMap_cons]
      cases hpt : ptGet? r k with
      | none => simp
      | some v =>
        cases hle : lineEntry k regs (idx, cidx + 1, pyStrip raw) <;>
          simp [Option.toList]

theorem ptGet?_init (pats : List (String × List RE)) (k : String)
    (h : k ∈ pats.map (·.1)) :
    ptGet? (pats.map (fun kv => (kv.1, ([] : List PTEntry)))) k = some [] := by
  induction pats with
  | nil => simp at h
  | cons kv pats ih =>
    rw [List.map_cons, ptGet?_cons]
    simp only [List.map_cons, List.mem_cons] at h
    by_cases hk : kv.1 = k
    · simp [hk]
    · rw [if_neg (by simpa using hk)]
      rcases h with h | h
      · exact absurd h.symm hk
      · exact ih h

theorem ptGet?_filter_nonempty (m : PTMap) (hnd : (m.map (·.1)).Nodup)
    (k : String) :
    ptGet? (m.filter (fun kv => !kv.2.isEmpty)) k =
      match ptGet? m k with
      | some v => if v.isEmpty then none else some v
      | none => none := by
  induction m with
  | nil => rfl
  | cons kv m ih =>
    simp only [List.map_cons, List.nodup_cons] at hnd
    rw [List.filter_cons, ptGet?_cons]
    by_cases hk : kv.1 = k
    · subst hk
      cases hv : kv.2.isEmpty
      · rw [if_pos (by simp [hv]), ptGet?_cons, if_pos (by simp)]
        simp [hv]
      · rw [if_neg (by simp [hv]), ptGet?_eq_none_of_not_mem]
        · simp [hv]
        · intro hmem
          obtain ⟨x, hx, hx1⟩ := List.mem_map.1 hmem
          exact hnd.1 (List.mem_map.2 ⟨x, List.mem_of_mem_filter hx, hx1⟩)
    · have hbeq : ¬((kv.1 == k) = true) := by simpa using hk
      rw [if_neg hbeq]
      split
      · rw [ptGet?_cons, if_neg hbeq]
        exact ih hnd.2
      · exact ih hnd.2

/-- Characterization of `apply_regexes_per_line`: for a pattern key `k`, the
recorded entries are exactly the `lineEntry` records of the non-blank line
enumeration (and the key is dropped when there are none). -/
theorem applyRegexes_get (pats : List (String × List RE)) (body : String)
    (k : String) (regs : List RE) (hnd : (pats.map (·.1)).Nodup)
    (hmem : (k, regs) ∈ pats) :
    ptGet? (applyRegexesPerLine body pats) k =
      (let es := (compactEnum (splitLines body) 1 0).filterMap (lineEntry k regs)
       if es.isEmpty then none else some es) := by
  unfold applyRegexesPerLine
  rw [ptGet?_filter_nonempty _ (by
    rw [map_fst_applyLinesAux]
    simpa [Function.comp] using hnd) k]
  rw [applyLinesAux_get pats k regs hnd hmem,
    ptGet?_init pats k (List.mem_map.2 ⟨(k, regs), hmem, rfl⟩)]
  simp

/-! ## Characterization helpers for the remaining stages -/

def entryLine : PTEntry → Nat
  | .triple _ l _ => l
  | .pair _ l => l

def entryCline : PTEntry → Nat
  | .triple _ _ c => c
  | .pair _ l => l

theorem normalizeTriples_keys_sub (pt : PTMap) (k : String)
    (h : k ∈ (normalizeTriples pt).map (·.1)) : k ∈ pt.map (·.1) := by
  obtain ⟨x, hx, hx1⟩ := List.mem_map.1 h
  simp only [normalizeTriples] at hx
  obtain ⟨a, ha, hfa⟩ := List.mem_filterMap.1 hx
  have hax : x.1 = a.1 := by
    by_cases h1 : (a.1 == "HEADER_SEGMENT") = true
    · rw [if_pos h1] at hfa
      rw [← Option.some_injective _ hfa]
    · rw [if_neg h1] at hfa
      by_cases h2 : (a.2.map padTriple).isEmpty = true
      · rw [if_pos h2] at hfa
        exact Option.noConfusion hfa
      · rw [if_neg h2] at hfa
        rw [← Option.some_injective _ hfa]
  exact List.mem_map.2 ⟨a, ha, by rw [← hax, hx1]⟩

theorem normalizeTriples_get (pt : PTMap) (k : String) (entries : List PTEntry)
    (hnd : (pt.map (·.1)).Nodup) (hk : k ≠ "HEADER_SEGMENT")
    (h : ptGet? (normalizeTriples pt) k = some entries) :
    ∃ orig, ptGet? pt k = some orig ∧ entries = orig.map padTriple := by
  induction pt with
  | nil => simp [normalizeTriples, ptGet?] at h
  | cons kv pt ih =>
    simp only [List.map_cons, List.nodup_cons] at hnd
    rw [show normalizeTriples (kv :: pt) =
      List.filterMap (fun kv => if kv.1 == "HEADER_SEGMENT" then some kv
        else
          let fixed := kv.2.map padTriple
          if fixed.isEmpty then none else some (kv.1, fixed)) (kv :: pt)
      from rfl, List.filterMap_cons] at h
    by_cases h1 : kv.1 = "HEADER_SEGMENT"
    · have hne : kv.1 ≠ k := fun hkk => hk (hkk ▸ h1)
      rw [if_pos (by simpa using h1)] at h
      dsimp only at h
      rw [ptGet?_cons, if_neg (by simpa using hne)] at h
      obtain ⟨orig, ho, he⟩ := ih hnd.2 h
      exact ⟨orig, by rw [ptGet?_cons, if_neg (by simpa using hne)]; exact ho, he⟩
    · rw [if_neg (by simpa using h1)] at h
      dsimp only at h
      by_cases hk1 : kv.1 = k
      · subst hk1
        cases hv : (kv.2.map padTriple).isEmpty
        · rw [if_neg (by simp [hv])] at h
          dsimp only at h
          rw [ptGet?_cons, if_pos (by simp)] at h
          refine ⟨kv.2, by rw [ptGet?_cons, if_pos (by simp)], ?_⟩
          exact (Option.some_injective _ h).symm
        · rw [if_pos (by simp [hv])] at h
          dsimp only at h
          exfalso
          have h2 : ptGet? (normalizeTriples pt) kv.1 = some entries := h
          rw [ptGet?_eq_none_of_not_mem _ _
            (fun hmem => hnd.1 (normalizeTriples_keys_sub pt kv.1 hmem))] at h2
          exact Option.noConfusion h2
      · cases hv : (kv.2.map padTriple).isEmpty
        · rw [if_neg (by simp [hv])] at h
          dsimp only at h
          rw [ptGet?_cons, if_neg (by simpa using hk1)] at h
          obtain ⟨orig, ho, he⟩ := ih hnd.2 h
          exact ⟨orig, by rw [ptGet?_cons, if_neg (by simpa using hk1)]; exact ho, he⟩
        · rw [if_pos (by simp [hv])] at h
          dsimp only at h
          obtain ⟨orig, ho, he⟩ := ih hnd.2 h
          exact ⟨orig, by rw [ptGet?_cons, if_neg (by simpa using hk1)]; exact ho, he⟩

theorem takeUntilIncl_eq_take (p : α → Bool) (l : List α) :
    ∃ n, takeUntilIncl p l = l.take n := by
  induction l with
  | nil => exact ⟨0, rfl⟩
  | cons x rest ih =>
    unfold takeUntilIncl
    split
    · exact ⟨1, rfl⟩
    · obtain ⟨n, hn⟩ := ih
      exact ⟨n + 1, by simp [hn]⟩

/-- The order used to sort the merged cluster list. -/
def clLe (a b : Cluster) : Prop := a.start_line ≤ b.start_line

theorem insCluster_mem (x : Cluster) (ys : List Cluster) :
    ∀ z ∈ insClusterByStart x ys, z = x ∨ z ∈ ys := by
  induction ys with
  | nil =>
    intro z hz
    simp only [insClusterByStart, List.mem_singleton] at hz
    exact Or.inl hz
  | cons y ys ih =>
    intro z hz
    unfold insClusterByStart at hz
    split at hz
    · rcases List.mem_cons.1 hz with hz | hz
      · exact Or.inr (hz ▸ List.mem_cons_self _ _)
      · rcases ih z hz with h | h
        · exact Or.inl h
        · exact Or.inr (List.mem_cons_of_mem _ h)
    · rcases List.mem_cons.1 hz with hz | hz
      · exact Or.inl hz
      · exact Or.inr hz

theorem insCluster_sorted (x : Cluster) (ys : List Cluster)
    (h : ys.Pairwise clLe) : (insClusterByStart x ys).Pairwise clLe := by
  induction ys with
  | nil => simp [insClusterByStart]
  | cons y ys ih =>
    rcases List.pairwise_cons.1 h with ⟨hy, hys⟩
    unfold insClusterByStart
    split
    case isTrue hle =>
      refine List.pairwise_cons.2 ⟨?_, ih hys⟩
      intro z hz
      rcases insCluster_mem x ys z hz with rfl | hmem
      · exact hle
      · exact hy z hmem
    case isFalse hle =>
      refine List.pairwise_cons.2 ⟨?_, h⟩
      intro z hz
      rcases List.mem_cons.1 hz with rfl | hmem
      · exact Nat.le_of_lt (Nat.lt_of_not_le hle)
      · exact Nat.le_trans (Nat.le_of_lt (Nat.lt_of_not_le hle)) (hy z hmem)

theorem sortClusters_sorted (xs : List Cluster) :
    (sortClustersByStart xs).Pairwise clLe := by
  suffices h : ∀ acc : List Cluster, acc.Pairwise clLe →
      (xs.foldl (fun acc x => insClusterByStart x acc) acc).Pairwise clLe by
    exact h [] (by simp)
  induction xs with
  | nil => intro acc hacc; exact hacc
  | cons x rest ih =>
    intro acc hacc
    exact ih _ (insCluster_sorted x acc hacc)

theorem trimFront_eq_dropWhile (ls : List String) :
    trimFront ls = ls.dropWhile (fun l => pyStrip l == "") := by
  induction ls with
  | nil => rfl
  | cons l rest ih =>
    unfold trimFront
    rw [List.dropWhile_cons]
    by_cases h : pyStrip l = "" <;> simp [h, ih]

theorem findIdx?_of_exists (p q : α → Bool) (l : List α)
    (hq : ∀ x, q x = !p x) (h : ∃ x ∈ l, p x) :
    l.findIdx? p = some (l.takeWhile q).length := by
  induction l with
  | nil => simp at h
  | cons x rest ih =>
    rw [List.findIdx?_cons, List.takeWhile_cons]
    by_cases hp : p x
    · simp [hp, hq x]
    · have h' : ∃ y ∈ rest, p y := by
        rcases h with ⟨y, hy, hpy⟩
        rcases List.mem_cons.1 hy with rfl | hy
        · exact absurd hpy hp
        · exact ⟨y, hy, hpy⟩
      rw [if_neg (by simpa using hp), List.findIdx?_succ, ih h', hq x]
      simp [hp]

theorem exists_not_of_dropWhile_ne_nil {p : α → Bool} {l : List α}
    (h : l.dropWhile p ≠ []) : ∃ x ∈ l, ¬ p x := by
  induction l with
  | nil => simp at h
  | cons x rest ih =>
    rw [List.dropWhile_cons] at h
    by_cases hp : p x
    · rw [if_pos hp] at h
      obtain ⟨y, hy, hpy⟩ := ih h
      exact ⟨y, List.mem_cons_of_mem _ hy, hpy⟩
    · exact ⟨x, List.mem_cons_self _ _, hp⟩

theorem firstNonblankFrom_eq (L : List String) (k : Nat)
    (h : ∃ x ∈ L.drop k, pyStrip x ≠ "") :
    firstNonblankFrom L k =
      some (k + ((L.drop k).takeWhile (fun l => pyStrip l == "")).length) := by
  unfold firstNonblankFrom
  rw [findIdx?_of_exists (fun l => decide (pyStrip l ≠ ""))
    (fun l => pyStrip l == "") (L.drop k)
    (fun x => by by_cases hx : pyStrip x = "" <;> simp [hx])
    (by
      obtain ⟨x, hx, hpx⟩ := h
      exact ⟨x, hx, by simpa using hpx⟩)]

theorem trimBack_eq (ls : List String) :
    trimBack ls = (ls.reverse.dropWhile (fun l => pyStrip l == "")).reverse := by
  unfold trimBack
  rw [trimFront_eq_dropWhile]

theorem mkBodyWindow_text (L : List String) (c : Nat) :
    (mkBodyWindow L c).text =
      String.intercalate "\n"
        (trimBack (trimFront (L.drop (if c > 0 then c - 1 else 0)))) := by
  unfold mkBodyWindow
  dsimp only
  by_cases h :
      (trimBack (trimFront (L.drop (if c > 0 then c - 1 else 0)))).isEmpty
  · rw [if_pos h, List.isEmpty_iff.1 h]
    rfl
  · rw [if_neg h]

theorem mkBodyWindow_of_ne (L : List String) (c : Nat)
    (h : (mkBodyWindow L c).text ≠ "") :
    (mkBodyWindow L c).end_line = L.length ∧
    (mkBodyWindow L c).start_line =
      (if c > 0 then c - 1 else 0) + 1 +
        ((L.drop (if c > 0 then c - 1 else 0)).takeWhile
          (fun l => pyStrip l == "")).length := by
  have hslice :
      ¬ ((trimBack (trimFront (L.drop (if c > 0 then c - 1 else 0)))).isEmpty
        = true) := by
    intro hempty
    apply h
    rw [mkBodyWindow_text, List.isEmpty_iff.1 hempty]
    rfl
  have hex : ∃ x ∈ L.drop (if c > 0 then c - 1 else 0), pyStrip x ≠ "" := by
    have h1 : trimFront (L.drop (if c > 0 then c - 1 else 0)) ≠ [] := by
      intro h1
      apply hslice
      unfold trimBack
      rw [h1]
      rfl
    rw [trimFront_eq_dropWhile] at h1
    obtain ⟨x, hx, hpx⟩ := exists_not_of_dropWhile_ne_nil h1
    exact ⟨x, hx, by simpa using hpx⟩
  unfold mkBodyWindow
  dsimp only
  rw [if_neg hslice, firstNonblankFrom_eq L _ hex]
  refine ⟨rfl, ?_⟩
  exact Nat.add_right_comm _ _ 1

theorem parseEmailBodyS_bottom_up (body0 : String) (g : Nat) :
    parseEmailBodyS body0 g "bottom-up" =
      ⟨(bottomUpSelected (allClustersOf (extractVisibleText body0) g)).reverse,
       "bottom-up",
       some (mkBodyWindow (splitLines (extractVisibleText body0))
         (cutBounds (bottomUpSelected
           (allClustersOf (extractVisibleText body0) g))).1)⟩ := by
  rfl

/-- C1 (amended): when the bottom-up walk finds a boundary header cluster
(cut line > 0), `body_window.text` is the slice of the normalized text FROM
the boundary cluster's start line TO THE END of the text, with leading and
trailing blank lines trimmed — i.e. it includes the quoted header block and
everything below it, not the new content above it (see the counterexample). -/
theorem c1_window_from_cut (body0 : String) (g : Nat)
    (hcut : 0 < (cutBounds (bottomUpSelected
      (allClustersOf (extractVisibleText body0) g))).1) :
    ∃ w, (parseEmailBodyS body0 g "bottom-up").body_window = some w ∧
      w.text = String.intercalate "\n"
        (((((splitLines (extractVisibleText body0)).drop
            ((cutBounds (bottomUpSelected
              (allClustersOf (extractVisibleText body0) g))).1 - 1)).dropWhile
            (fun l => pyStrip l == "")).reverse.dropWhile
            (fun l => pyStrip l == "")).reverse) := by
  rw [parseEmailBodyS_bottom_up]
  refine ⟨_, rfl, ?_⟩
  rw [mkBodyWindow_text, if_pos hcut, trimBack_eq, trimFront_eq_dropWhile]

/-- C1 witness: the amended window equation evaluated on the counterexample
body (boundary header cluster found at line 3). -/
theorem c1_witness :
    0 < (cutBounds (bottomUpSelected (allClustersOf (extractVisibleText
      "Hello there\n\nVon: a@x.com\nGesendet: Montag, 01.02.2024") 1))).1 ∧
    ∃ w, (parseEmailBodyS
        "Hello there\n\nVon: a@x.com\nGesendet: Montag, 01.02.2024" 1
        "bottom-up").body_window = some w ∧
      w.text = String.intercalate "\n"
        (((((splitLines (extractVisibleText
            "Hello there\n\nVon: a@x.com\nGesendet: Montag, 01.02.2024")).drop
            ((cutBounds (bottomUpSelected (allClustersOf (extractVisibleText
              "Hello there\n\nVon: a@x.com\nGesendet: Montag, 01.02.2024")
              1))).1 - 1)).dropWhile
            (fun l => pyStrip l == "")).reverse.dropWhile
            (fun l => pyStrip l == "")).reverse) :=
  ⟨by decide,
   c1_window_from_cut "Hello there\n\nVon: a@x.com\nGesendet: Montag, 01.02.2024"
     1 (by decide)⟩

set_option maxHeartbeats 1000000 in
/-- C10: for every bottom-up parse whose trimmed body slice is non-empty,
`body_window.end_line` equals the total number of lines of the normalized
text — it is not adjusted down when trailing blank lines were trimmed out of
the window text — while `start_line` is adjusted up to the first non-blank
line at or after the cut point. -/
theorem c10_window_bounds (body0 : String) (g : Nat) (w : BodyWindow)
    (hw : (parseEmailBodyS body0 g "bottom-up").body_window = some w)
    (hne : w.text ≠ "") :
    w.end_line = (splitLines (extractVisibleText body0)).length ∧
    w.start_line =
      (if (cutBounds (bottomUpSelected (allClustersOf
            (extractVisibleText body0) g))).1 > 0 then
        (cutBounds (bottomUpSelected (allClustersOf
          (extractVisibleText body0) g))).1 - 1
       else 0) + 1 +
      (((splitLines (extractVisibleText body0)).drop
          (if (cutBounds (bottomUpSelected (allClustersOf
               (extractVisibleText body0) g))).1 > 0 then
            (cutBounds (bottomUpSelected (allClustersOf
              (extractVisibleText body0) g))).1 - 1
           else 0)).takeWhile (fun l => pyStrip l == "")).length := by
  rw [parseEmailBodyS_bottom_up] at hw
  have hw2 : w = mkBodyWindow (splitLines (extractVisibleText body0))
      (cutBounds (bottomUpSelected (allClustersOf (extractVisibleText body0)
        g))).1 := (Option.some.inj hw).symm
  rw [hw2] at hne
  rw [hw2]
  exact mkBodyWindow_of_ne _ _ hne

/-- C10 witness: for `"a@x.com\n\n"` the trailing blank line is trimmed from
the window text, yet `end_line = 2`, the total line count — not the line of
the last non-blank line (1) — while `start_line = 1`. -/
theorem c10_witness :
    ((parseEmailBodyS "a@x.com\n\n" 1 "bottom-up").body_window =
      some ⟨1, 2, "a@x.com"⟩) ∧
    (⟨1, 2, "a@x.com"⟩ : BodyWindow).text ≠ "" ∧
    (⟨1, 2, "a@x.com"⟩ : BodyWindow).end_line =
      (splitLines (extractVisibleText "a@x.com\n\n")).length ∧
    (splitLines (extractVisibleText "a@x.com\n\n")).length = 2 ∧
    (⟨1, 2, "a@x.com"⟩ : BodyWindow).start_line = 1 := by
  refine ⟨by rfl, by decide, ?_, by rfl, by rfl⟩
  exact (c10_window_bounds "a@x.com\n\n" 1 ⟨1, 2, "a@x.com"⟩ (by rfl)
    (by decide)).1

/-! ## Claim theorems -/

/-- C8: `parse("")` with default arguments returns exactly
`{ clusters: [], strategy: "bottom-up",
   body_window: { start_line: 0, end_line: 0, text: "" } }`. -/
theorem c8_parse_empty_input :
    parse_email_body (.str "") 1 "bottom-up" =
      ⟨[], "bottom-up", some ⟨0, 0, ""⟩⟩ := by
  rfl

/-- C9: `parse` never fails on a non-string body: `None` and any other
non-string value are coerced locally to `""`, so the result equals
`parse("")` for every `max_gap` and strategy (and the embedding is a total
function into `ParseResult`). -/
theorem c9_nonstring_coerced (g : Nat) (s : String) :
    parse_email_body .pyNone g s = parse_email_body (.str "") g s ∧
    parse_email_body .otherNonStr g s = parse_email_body (.str "") g s :=
  ⟨rfl, rfl⟩

/-- C2 (code bug): the spec's example is NOT normalized.  `_try_parse_date`
first substitutes `_CAL_RE`, which contains month names besides weekday
names (its own comment says "Remove weekday names"), so `März` is destroyed
and `"Gesendet: Montag, 3. März 2024 14:05"` yields no `SENT_ISO` at all —
while a Spanish month name (absent from `_CAL_RE`) is normalized fine. -/
theorem c2_date_normalization_bug :
    tryParseDate "Montag, 3. März 2024 14:05" = "" ∧
    dictGet? (parseHeaderBlock "Gesendet: Montag, 3. März 2024 14:05").headers
      "SENT_ISO" = none ∧
    tryParseDate "3 marzo 2024 14:05" = "2024-03-03T14:05:00" :=
  ⟨rfl, rfl, rfl⟩

/-- C4 counterexample: a continuation line that starts with leading
whitespace and IS itself a header-key line (` An: Alice`) is still joined
into the previous header's value, instead of terminating the collection as
the claim states: the parse yields a single FROM entry with the joined value
`"Max An: Alice"` and no TO entry. -/
theorem c4_counterexample :
    headerKeyTest " An: Alice" = true ∧
    (parseHeaderBlock "Von: Max\n An: Alice").headers_list =
      [⟨"Von", "FROM", "Max An: Alice", 1⟩] :=
  ⟨rfl, rfl⟩

/-- C3 counterexample: in
`"\n\nVon: a@x.com\nb@y.com"` the EMAIL folded in from the header value gets
`cline := original line = 3` (it skips no blank lines), while the regex match
on the later line 4 has `cline = 2`: document order increases (3 → 4) but the
`cline`s decrease (3 → 2), and `cline = 3` exceeds the number of non-blank
lines (2), so `cline` is neither strictly increasing in document order nor
blank-line-free for these entities. -/
theorem c3_counterexample :
    flatEntriesOf "\n\nVon: a@x.com\nb@y.com" =
      [⟨"EMAIL", ["a@x.com"], 3, 1⟩, ⟨"EMAIL", ["b@y.com"], 4, 2⟩,
       ⟨"EMAIL", ["a@x.com"], 3, 3⟩] ∧
    (∃ e1 ∈ flatEntriesOf "\n\nVon: a@x.com\nb@y.com",
     ∃ e2 ∈ flatEntriesOf "\n\nVon: a@x.com\nb@y.com",
       e1.line < e2.line ∧ e2.cline < e1.cline) ∧
    countNonblank (splitLines "\n\nVon: a@x.com\nb@y.com") = 2 ∧
    (⟨"EMAIL", ["a@x.com"], 3, 3⟩ : MatchItem) ∈
      flatEntriesOf "\n\nVon: a@x.com\nb@y.com" := by
  refine ⟨rfl, ⟨⟨"EMAIL", ["a@x.com"], 3, 3⟩, ?_, ⟨"EMAIL", ["b@y.com"], 4, 2⟩,
    ?_, ?_, ?_⟩, rfl, ?_⟩ <;> decide

/-- C1 counterexample: for a body whose new message text (`"Hello there"`)
is followed below by a quoted header block, `body_window.text` is NOT the new
content above the block — the code slices from the header cluster's start
line to the end, so the window text is the header block itself. -/
theorem c1_counterexample :
    (parse_email_body
        (.str "Hello there\n\nVon: a@x.com\nGesendet: Montag, 01.02.2024")).body_window =
      some ⟨3, 4, "Von: a@x.com\nGesendet: Montag, 01.02.2024"⟩ ∧
    "Von: a@x.com\nGesendet: Montag, 01.02.2024" ≠ "Hello there" :=
  ⟨rfl, by decide⟩

/-- C7 (amended): if the input contains no tag-like marker — the module's detection
regex `<\s*(?:/?[A-Za-z]|!DOCTYPE|!--)` finds no match — the visible-text
normalizer returns it unchanged; and on the spec's example `"a<b"` (where
the detector does fire, since `<b` looks like a tag opener) the pipeline
also returns the input unchanged. -/
theorem c7_plain_text_identity (s : String)
    (h : reTest tagMarkerRe s.data = false) :
    extractVisibleText s = s ∧ extractVisibleText "a<b" = "a<b" := by
  refine ⟨?_, by rfl⟩
  simp [extractVisibleText, h]

/-- C7 witness: a concrete tag-free string is returned unchanged. -/
theorem c7_witness :
    reTest tagMarkerRe "price a<5 and b>2".data = false ∧
    (extractVisibleText "price a<5 and b>2" = "price a<5 and b>2" ∧
      extractVisibleText "a<b" = "a<b") :=
  ⟨rfl, c7_plain_text_identity "price a<5 and b>2" rfl⟩

/-- C7 counterexample: `"a<b  c"` holds no `>` character at all, so it has
no `<tag>`-shaped substring, yet the tag-opener detection regex fires on
`<b` (a `<` directly followed by a letter) and the HTML pipeline runs,
collapsing the interior space run: the normalizer is NOT the identity on
this tag-free input, refuting the claim as stated. -/
theorem c7_counterexample :
    ("a<b  c" : String).data.all (fun ch => ch ≠ '>') = true ∧
    extractVisibleText "a<b  c" = "a<b c" ∧
    extractVisibleText "a<b  c" ≠ "a<b  c" := by
  refine ⟨by decide, by rfl, by decide⟩

/-- C4 (amended): during value collection, any subsequent line that starts
with a tab or space and is non-blank is joined (with a single space) to the
current value — **regardless** of whether it is itself a header-key line; a
blank line, or any line that does not start with whitespace (header-key or
not), terminates the collection. -/
theorem c4_continuation_join (lines : List String) (j : Nat)
    (value : String) (hj : j < lines.length) :
    (pyStrip lines[j] = "" → collectCont lines j value = (value, j)) ∧
    (pyStrip lines[j] ≠ "" → startsWithTabSpace lines[j] = true →
      collectCont lines j value =
        collectCont lines (j + 1) (value ++ " " ++ pyStrip lines[j])) ∧
    (pyStrip lines[j] ≠ "" → startsWithTabSpace lines[j] = false →
      collectCont lines j value = (value, j)) := by
  have hd : lines.drop j = lines[j] :: lines.drop (j + 1) :=
    List.drop_eq_getElem_cons hj
  unfold collectCont
  rw [hd]
  refine ⟨fun h => ?_, fun h1 h2 => ?_, fun h1 h2 => ?_⟩
  · simp only [collectContL]
    rw [if_pos h]
  · simp only [collectContL]
    rw [if_neg h1, if_pos h2]
  · simp only [collectContL]
    rw [if_neg h1, if_neg (by simp [h2])]

/-- C4 witness: the indented header-key line ` An: Alice` is non-blank,
starts with whitespace, IS a header-key line, and is nevertheless joined as
a continuation of the previous value. -/
theorem c4_witness :
    (pyStrip " An: Alice" ≠ "" ∧ startsWithTabSpace " An: Alice" = true ∧
      headerKeyTest " An: Alice" = true) ∧
    collectCont ["Von: Max", " An: Alice"] 1 "Max" =
      collectCont ["Von: Max", " An: Alice"] 2 ("Max" ++ " " ++ "An: Alice") := by
  refine ⟨⟨by decide, by rfl, by rfl⟩, ?_⟩
  have h := (c4_continuation_join ["Von: Max", " An: Alice"] 1 "Max"
    (by decide)).2.1 (by decide) (by rfl)
  exact h

theorem lineEntry_some (k : String) (regs : List RE) (e : Nat × Nat × String)
    (x : PTEntry) (h : lineEntry k regs e = some x) :
    x = .triple (lineHits regs e.2.2) e.1 e.2.1 := by
  unfold lineEntry lineEntryC at h
  split at h
  · exact Option.noConfusion h
  · dsimp only at h
    split at h
    · exact Option.noConfusion h
    · exact (Option.some_injective _ h).symm

theorem lineEntry_TEL_some_not_cal (regs : List RE) (e : Nat × Nat × String)
    (x : PTEntry) (h : lineEntry "TEL" regs e = some x) :
    reTest calRe e.2.2.data = false := by
  unfold lineEntry lineEntryC at h
  cases hcal : reTest calRe e.2.2.data
  · rfl
  · rw [hcal] at h
    simp at h

theorem lineEntry_eq_noSup_of_ne (k : String) (hk : k ≠ "TEL")
    (regs : List RE) (e : Nat × Nat × String) :
    lineEntry k regs e = lineEntryNoSup k regs e := by
  unfold lineEntry lineEntryNoSup lineEntryC
  have hbeq : (k == "TEL") = false := by simpa using hk
  rw [hbeq]
  simp

theorem filterMap_lineEntry_of_ne (k : String) (regs : List RE)
    (hk : k ≠ "TEL") (l : List (Nat × Nat × String)) :
    l.filterMap (lineEntry k regs) = l.filterMap (lineEntryNoSup k regs) := by
  induction l with
  | nil => rfl
  | cons e rest ih =>
    rw [List.filterMap_cons, List.filterMap_cons, ih,
      lineEntry_eq_noSup_of_ne k hk regs e]

theorem filterMap_lineEntry_TEL (regs : List RE)
    (l : List (Nat × Nat × String)) :
    l.filterMap (lineEntry "TEL" regs) =
      (l.filter (fun e => !reTest calRe e.2.2.data)).filterMap
        (lineEntryNoSup "TEL" regs) := by
  induction l with
  | nil => rfl
  | cons e rest ih =>
    rw [List.filterMap_cons, List.filter_cons]
    cases hcal : reTest calRe e.2.2.data
    · have he : lineEntry "TEL" regs e = lineEntryNoSup "TEL" regs e := by
        unfold lineEntry lineEntryNoSup
        rw [hcal]
      rw [if_pos (by simp [hcal]), List.filterMap_cons, he, ih]
    · have he : lineEntry "TEL" regs e = none := by
        unfold lineEntry lineEntryC
        rw [hcal]
        simp
      rw [if_neg (by simp [hcal]), he, ih]

/-- C6: on every non-blank line whose stripped text contains a calendar
token (a `_CAL_RE` match), no TEL entry is recorded — every TEL entry's line
is calendar-free — while matching is otherwise unaffected: for non-TEL keys
the recorded entries equal those of the suppression-free comparator
`lineEntryNoSup`, and TEL entries equal the comparator restricted to
non-calendar lines.  The spec's example line (containing "Tuesday") yields
no TEL key at all, since the calendar detector fires on it. -/
theorem c6_tel_calendar_suppression :
    (∀ (pats : List (String × List RE)) (body : String) (k : String)
        (regs : List RE) (entries : List PTEntry),
        (pats.map (·.1)).Nodup → (k, regs) ∈ pats →
        ptGet? (applyRegexesPerLine body pats) k = some entries →
        (k = "TEL" →
          (∀ v l c, PTEntry.triple v l c ∈ entries →
            ∃ raw, (splitLines body)[l - 1]? = some raw ∧
              reTest calRe (pyStrip raw).data = false) ∧
          entries = ((compactEnum (splitLines body) 1 0).filter
              (fun e => !reTest calRe e.2.2.data)).filterMap
              (lineEntryNoSup k regs)) ∧
        (k ≠ "TEL" →
          entries = (compactEnum (splitLines body) 1 0).filterMap
            (lineEntryNoSup k regs))) ∧
    ptGet? (applyRegexesPerLine "Meeting on Tuesday, 03.06.2025 10:00-11:00"
        compilePatterns) "TEL" = none ∧
    reTest calRe (pyStrip "Meeting on Tuesday, 03.06.2025 10:00-11:00").data =
      true := by
  refine ⟨?_, rfl, rfl⟩
  intro pats body k regs entries hnd hmem hget
  have hch := applyRegexes_get pats body k regs hnd hmem
  rw [hget] at hch
  dsimp only at hch
  split at hch
  · exact Option.noConfusion hch
  · have hentries : entries =
        (compactEnum (splitLines body) 1 0).filterMap (lineEntry k regs) :=
      Option.some_injective _ hch
    constructor
    · intro hTEL
      subst hTEL
      constructor
      · intro v l c hmem2
        rw [hentries] at hmem2
        obtain ⟨a, ha, hfa⟩ := List.mem_filterMap.1 hmem2
        obtain ⟨raw, h1, h2, _h3, _h4, _h5⟩ :=
          compactEnum_mem (splitLines body) 1 0 a ha
        have heq := lineEntry_some _ _ _ _ hfa
        injection heq with hv hl hc
        have hcal := lineEntry_TEL_some_not_cal regs a _ hfa
        refine ⟨raw, ?_, ?_⟩
        · rw [hl]
          exact h1
        · rw [← h2]
          exact hcal
      · rw [hentries, filterMap_lineEntry_TEL]
    · intro hk
      rw [hentries, filterMap_lineEntry_of_ne k regs hk]

/-- C6 witness: a concrete instantiation of the suppression theorem at the
TEL entry recorded for `"Tel: 030 1234 5678"` (a calendar-free line). -/
theorem c6_witness :
    ((compilePatterns.map (·.1)).Nodup ∧
      ("TEL", [telRe]) ∈ compilePatterns ∧
      ptGet? (applyRegexesPerLine "Tel: 030 1234 5678" compilePatterns) "TEL" =
        some [.triple ["Tel: 030 1234 5678"] 1 1]) ∧
    (∃ raw, (splitLines "Tel: 030 1234 5678")[(1 : Nat) - 1]? = some raw ∧
      reTest calRe (pyStrip raw).data = false) := by
  have hnd : (compilePatterns.map (·.1)).Nodup := by decide
  have hmem : ("TEL", [telRe]) ∈ compilePatterns := by simp [compilePatterns]
  have hget : ptGet? (applyRegexesPerLine "Tel: 030 1234 5678" compilePatterns)
      "TEL" = some [.triple ["Tel: 030 1234 5678"] 1 1] := by rfl
  refine ⟨⟨hnd, hmem, hget⟩, ?_⟩
  exact ((c6_tel_calendar_suppression.1 compilePatterns "Tel: 030 1234 5678"
    "TEL" [telRe] _ hnd hmem hget).1 rfl).1 ["Tel: 030 1234 5678"] 1 1
    (by simp)

/-- C3 (amended): the regex-derived entries of `apply_regexes_per_line` do
have strictly increasing `line` and `cline` in document order, each `cline`
equal to the number of non-blank lines up to and including the entry's
(non-blank) line; but the EMAIL entries folded in from header values are
2-element pairs which `_normalize_triples` completes with `cline :=
original line number`, so their `cline`s count blank lines and can disagree
with document order (see the counterexample). -/
theorem c3_cline_accounting :
    (∀ (pats : List (String × List RE)) (body : String) (k : String)
        (regs : List RE) (entries : List PTEntry),
        (pats.map (·.1)).Nodup → (k, regs) ∈ pats →
        ptGet? (applyRegexesPerLine body pats) k = some entries →
        entries.Pairwise
          (fun a b => entryLine a < entryLine b ∧ entryCline a < entryCline b) ∧
        ∀ e ∈ entries,
          entryCline e = countNonblank ((splitLines body).take (entryLine e)) ∧
          ∃ raw, (splitLines body)[entryLine e - 1]? = some raw ∧
            pyStrip raw ≠ "") ∧
    (∀ (pt : PTMap) (k : String) (entries : List PTEntry),
        (pt.map (·.1)).Nodup → k ≠ "HEADER_SEGMENT" →
        ptGet? (normalizeTriples pt) k = some entries →
        ∃ orig, ptGet? pt k = some orig ∧ entries = orig.map padTriple) := by
  constructor
  · intro pats body k regs entries hnd hmem hget
    have hch := applyRegexes_get pats body k regs hnd hmem
    rw [hget] at hch
    dsimp only at hch
    split at hch
    · exact Option.noConfusion hch
    · have hentries : entries =
          (compactEnum (splitLines body) 1 0).filterMap (lineEntry k regs) :=
        Option.some_injective _ hch
      constructor
      · rw [hentries]
        refine List.pairwise_filterMap.2 ?_
        refine (compactEnum_pairwise (splitLines body) 1 0).imp ?_
        intro a b hab x hx y hy
        have hxe := lineEntry_some _ _ _ _ (Option.mem_def.1 hx)
        have hye := lineEntry_some _ _ _ _ (Option.mem_def.1 hy)
        rw [hxe, hye]
        simpa [entryLine, entryCline] using hab
      · intro e he
        rw [hentries] at he
        obtain ⟨a, ha, hfa⟩ := List.mem_filterMap.1 he
        obtain ⟨raw, h1, h2, h3, h4, h5⟩ :=
          compactEnum_mem (splitLines body) 1 0 a ha
        have heq := lineEntry_some _ _ _ _ hfa
        constructor
        · rw [heq]
          simp only [entryLine, entryCline]
          rw [h5, show a.1 - 1 + 1 = a.1 from by omega]
          simp
        · refine ⟨raw, ?_, h3⟩
          rw [heq]
          simp only [entryLine]
          exact h1
  · intro pt k entries hnd hk h
    exact normalizeTriples_get pt k entries hnd hk h

/-- C3 witness: concrete instantiations — the EMAIL entries of a body with
an interior blank line satisfy the monotone compact accounting, and a
concrete pair entry is completed with `cline := line` by
`_normalize_triples`. -/
theorem c3_witness :
    ((compilePatterns.map (·.1)).Nodup ∧
      ("EMAIL", [emailRe]) ∈ compilePatterns ∧
      ptGet? (applyRegexesPerLine "a@x.com\n\nb@y.com" compilePatterns)
        "EMAIL" = some [.triple ["a@x.com"] 1 1, .triple ["b@y.com"] 3 2]) ∧
    ([(.triple ["a@x.com"] 1 1 : PTEntry),
      .triple ["b@y.com"] 3 2].Pairwise
        (fun a b => entryLine a < entryLine b ∧ entryCline a < entryCline b)) ∧
    (∃ orig, ptGet? [("EMAIL", [PTEntry.pair ["x@y.de"] 7])] "EMAIL" =
        some orig ∧ [PTEntry.triple ["x@y.de"] 7 7] = orig.map padTriple) := by
  have hnd : (compilePatterns.map (·.1)).Nodup := by decide
  have hmem : ("EMAIL", [emailRe]) ∈ compilePatterns := by simp [compilePatterns]
  have hget : ptGet? (applyRegexesPerLine "a@x.com\n\nb@y.com" compilePatterns)
      "EMAIL" = some [.triple ["a@x.com"] 1 1, .triple ["b@y.com"] 3 2] := by rfl
  refine ⟨⟨hnd, hmem, hget⟩,
    (c3_cline_accounting.1 compilePatterns "a@x.com\n\nb@y.com" "EMAIL"
      [emailRe] _ hnd hmem hget).1, ?_⟩
  exact c3_cline_accounting.2 [("EMAIL", [PTEntry.pair ["x@y.de"] 7])] "EMAIL"
    [PTEntry.triple ["x@y.de"] 7 7] (by decide) (by decide) (by rfl)

/-- C5 (amended): the final cluster list is ordered by `start_line`
(non-decreasing) under both strategies, and `_normalize_cluster_lines`
recomputes a match cluster's `start_line`/`end_line` as the min/max original
item line; but clusters are NOT pairwise disjoint — a match cluster and a
header cluster can overlap (see the counterexample) — and header clusters
keep segment line bounds instead of item min/max. -/
theorem bottomUpSelected_reverse_sorted (cs : List Cluster)
    (h : cs.Pairwise clLe) :
    ((bottomUpSelected cs).reverse).Pairwise clLe := by
  have h1 : cs.reverse.Pairwise (fun a b => clLe b a) :=
    List.pairwise_reverse.2 h
  obtain ⟨n, hn⟩ := takeUntilIncl_eq_take isHeaderCluster cs.reverse
  have h2 : (bottomUpSelected cs).Pairwise (fun a b => clLe b a) := by
    unfold bottomUpSelected
    rw [hn]
    exact List.Pairwise.sublist (List.take_sublist n _) h1
  exact List.pairwise_reverse.2 h2

theorem c5_clusters_sorted_minmax :
    (∀ (v : PyVal) (g : Nat) (st : String),
      (parse_email_body v g st).clusters.Pairwise
        (fun a b => a.start_line ≤ b.start_line)) ∧
    (∀ (cs : List Cluster) (c : Cluster), c ∈ normalizeClusterLines cs →
      ∀ it rest, c.items = it :: rest →
        c.start_line = itemsMinLine it rest ∧
        c.end_line = itemsMaxLine it rest) := by
  constructor
  · intro v g st
    unfold parse_email_body parseEmailBodyS
    dsimp only
    split
    · split
      · dsimp only
        exact bottomUpSelected_reverse_sorted _ (sortClusters_sorted _)
      · next hcontra => exact absurd rfl hcontra
    · split
      · dsimp only
        exact bottomUpSelected_reverse_sorted _ (sortClusters_sorted _)
      · dsimp only
        exact sortClusters_sorted _
  · intro cs c hc it rest hitems
    unfold normalizeClusterLines at hc
    obtain ⟨orig, ho, hfo⟩ := List.mem_map.1 hc
    cases horig : orig.items with
    | nil =>
      rw [horig] at hfo
      subst hfo
      rw [hitems] at horig
      exact List.noConfusion horig
    | cons it0 rest0 =>
      rw [horig] at hfo
      subst hfo
      have h2 : it0 :: rest0 = it :: rest := hitems
      injection h2 with h3 h4
      subst h3
      subst h4
      exact ⟨rfl, rfl⟩

/-- C5 witness: the sortedness applied to a concrete parse, and the min/max
recomputation applied to a concrete normalized cluster. -/
theorem c5_witness :
    (parse_email_body (.str "Von: a@x.com\nb@y.com") 1
        "top-down").clusters.Pairwise
      (fun a b => a.start_line ≤ b.start_line) ∧
    (⟨5, 5, [⟨"EMAIL", ["a"], 5, 2⟩], some 2, some 2⟩ : Cluster).start_line =
      itemsMinLine ⟨"EMAIL", ["a"], 5, 2⟩ [] ∧
    (⟨5, 5, [⟨"EMAIL", ["a"], 5, 2⟩], some 2, some 2⟩ : Cluster).end_line =
      itemsMaxLine ⟨"EMAIL", ["a"], 5, 2⟩ [] := by
  refine ⟨c5_clusters_sorted_minmax.1 _ 1 "top-down", ?_, ?_⟩
  · exact (c5_clusters_sorted_minmax.2
      [⟨2, 2, [⟨"EMAIL", ["a"], 5, 2⟩], none, none⟩] _ (by decide) _ _ rfl).1
  · exact (c5_clusters_sorted_minmax.2
      [⟨2, 2, [⟨"EMAIL", ["a"], 5, 2⟩], none, none⟩] _ (by decide) _ _ rfl).2

/-- C5 counterexample: for `"Von: a@x.com\nb@y.com"` (top-down, so all
clusters are returned) the match-cluster spans lines 1–2 while the header
cluster spans lines 1–1: two distinct clusters whose `[start_line, end_line]`
ranges intersect, refuting pairwise disjointness. -/
theorem c5_counterexample :
    (parse_email_body (.str "Von: a@x.com\nb@y.com") 1 "top-down").clusters =
      [⟨1, 2, [⟨"EMAIL", ["a@x.com"], 1, 1⟩, ⟨"EMAIL", ["a@x.com"], 1, 1⟩,
               ⟨"EMAIL", ["b@y.com"], 2, 2⟩], some 1, some 2⟩,
       ⟨1, 1, [⟨"FROM", ["a@x.com"], 1, 1⟩], none, none⟩] ∧
    (∃ c1 ∈ (parse_email_body (.str "Von: a@x.com\nb@y.com") 1 "top-down").clusters,
     ∃ c2 ∈ (parse_email_body (.str "Von: a@x.com\nb@y.com") 1 "top-down").clusters,
       c1 ≠ c2 ∧ c2.start_line ≤ c1.end_line ∧ c1.start_line ≤ c2.end_line) := by
  constructor
  · rfl
  · refine ⟨⟨1, 2, [⟨"EMAIL", ["a@x.com"], 1, 1⟩, ⟨"EMAIL", ["a@x.com"], 1, 1⟩,
      ⟨"EMAIL", ["b@y.com"], 2, 2⟩], some 1, some 2⟩, ?_,
      ⟨1, 1, [⟨"FROM", ["a@x.com"], 1, 1⟩], none, none⟩, ?_, ?_, ?_, ?_⟩ <;> decide

end EmailParse
